import Mathlib

/-!
Snapshot registry (`src/module/snapshot_module.c`), the menu tool
(`src/user/cli.c`) and the one-shot client (`src/Server/snapshot_user.c`)

A shallow embedding of the kernel module's registry: the fixed table `snaps`,
the counter `snaps_count`, the two control operations `do_snapshot` and
`do_restore_rebind`, and the handler `snapshot_ioctl`; of the capture and
restore rounds of the menu tool; and of the `snapshot` command of the client.

* C `int` / `pid_t` / `long` values are `Int`; no arithmetic in the module can
  overflow (the only arithmetic is `snaps_count++` below `MAX_SNAPS` and
  `snaps_count--` after a successful lookup).
* The table is a list of `snap_entry`; every array access goes through `rd` /
  `upd`, which return `none` when the index is outside the array.  An operation
  returning `none` therefore means "the C code would touch memory outside
  `snaps`".
* `get_task_struct` / `put_task_struct` are modelled by a ghost counter
  `refs`, the number of references the registry holds on each task.
* The kernel's pid lookup (`find_get_pid` followed by `pid_task`) is an
  environment `procs : Int → pid_lookup` supplied per call.
-/

namespace Snapshotter

/-- Capacity of the table: `#define MAX_SNAPS 64`. -/
def MAX_SNAPS : Nat := 64

/-- Linux errno value `ENOMEM`. -/
def ENOMEM : Int := 12

/-- Linux errno value `EINVAL`. -/
def EINVAL : Int := 22

/-- Linux task flag `PF_KTHREAD` (`0x00200000`): the task is a kernel thread. -/
def PF_KTHREAD : Nat := 0x00200000

/-- The fields of a kernel `struct task_struct` that the module reads.
`addr` is the address of the structure (the value of a non-null
`struct task_struct *`), `mm` is `task->mm` (`none` for `NULL`), `uid` is
`task->cred->uid`, `comm` is the short name copied by `get_task_comm`. -/
structure task_struct where
  addr : Nat
  flags : Nat
  mm : Option Nat
  uid : Nat
  comm : List Nat
deriving DecidableEq, Repr

/-- One table row, `struct snap_entry`.  `task` is the held pointer, `none`
for `NULL`. -/
structure snap_entry where
  pid : Int
  task : Option Nat
  uid : Nat
  comm : List Nat
deriving DecidableEq, Repr

/-- Outcome of resolving a pid: `find_get_pid` returned `NULL` (`no_pid`),
`pid_task` returned `NULL` (`no_task`), or a task was found. -/
inductive pid_lookup where
  | no_pid : pid_lookup
  | no_task : pid_lookup
  | task (t : task_struct) : pid_lookup
deriving DecidableEq, Repr

/-- The module's global state: the array `snaps`, the counter `snaps_count`,
and the ghost count `refs` of references the registry holds on each task. -/
structure Registry where
  snaps : List snap_entry
  snaps_count : Int
  refs : Nat → Int

/-- Array read `a[i]`; `none` when `i` is outside the array. -/
def rd (a : List snap_entry) (i : Int) : Option snap_entry :=
  if 0 ≤ i then a[i.toNat]? else none

/-- In-place update of `a[i]`; `none` when `i` is outside the array. -/
def upd (a : List snap_entry) (i : Int) (f : snap_entry → snap_entry) :
    Option (List snap_entry) :=
  match rd a i with
  | some e => some (a.set i.toNat (f e))
  | none => none

/-- The statement `snaps[i].field = ...` on the registry. -/
def store (s : Registry) (i : Int) (f : snap_entry → snap_entry) : Option Registry :=
  match upd s.snaps i f with
  | some a => some { s with snaps := a }
  | none => none

/-- The call `get_task_struct(t)`: the registry takes one reference on `t`. -/
def get_task_struct (s : Registry) (t : Nat) : Registry :=
  { s with refs := fun x => if x = t then s.refs x + 1 else s.refs x }

/-- The call `put_task_struct(t)`: the registry drops one reference on `t`. -/
def put_task_struct (s : Registry) (t : Nat) : Registry :=
  { s with refs := fun x => if x = t then s.refs x - 1 else s.refs x }

/-- The state set up by `snapshot_init`: `memset(snaps, 0, sizeof(snaps))`,
`snaps_count = 0`, and no reference held. -/
def init : Registry :=
  { snaps := List.replicate MAX_SNAPS { pid := 0, task := none, uid := 0, comm := [] }
    snaps_count := 0
    refs := fun _ => 0 }

/-- The loop of `find_snap`, `for (i = ...; i < snaps_count; i++)`, with `k`
the number of iterations left (`snaps_count - i`, or `0` when that is
negative) and `i` the loop variable. -/
def find_snap_loop (snaps : List snap_entry) (pid : Int) : Nat → Int → Option Int
  | 0, _ => some (-1)
  | k + 1, i =>
    match rd snaps i with
    | none => none
    | some e => if e.pid = pid then some i else find_snap_loop snaps pid k (i + 1)

/-- The function `find_snap(pid)`: index of the first live entry whose pid is
`pid`, or `-1`. -/
def find_snap (s : Registry) (pid : Int) : Option Int :=
  find_snap_loop s.snaps pid s.snaps_count.toNat 0

/-- The function `do_snapshot(pid)`: returns the status and the new state. -/
def do_snapshot (procs : Int → pid_lookup) (s : Registry) (pid : Int) :
    Option (Int × Registry) :=
  if s.snaps_count ≥ (MAX_SNAPS : Int) then some (-ENOMEM, s)
  else
    match procs pid with
    | .no_pid => some (-EINVAL, s)
    | .no_task => some (-EINVAL, s)
    | .task task =>
      if task.flags &&& PF_KTHREAD ≠ 0 then some (-EINVAL, s)
      else if task.mm = none then some (-EINVAL, s)
      else
        let s0 := get_task_struct s task.addr
        (store s0 s0.snaps_count (fun e => { e with pid := pid })).bind fun s1 =>
        (store s1 s1.snaps_count (fun e => { e with task := some task.addr })).bind fun s2 =>
        (store s2 s2.snaps_count (fun e => { e with uid := task.uid })).bind fun s3 =>
        (store s3 s3.snaps_count (fun e => { e with comm := task.comm })).bind fun s4 =>
        let s5 := { s4 with snaps_count := s4.snaps_count + 1 }
        (rd s5.snaps (s5.snaps_count - 1)).bind fun _ =>
        some (0, s5)

/-- The helper `validate_user_task(task)`; the argument is `none` for a
`NULL` pointer. -/
def validate_user_task (task : Option task_struct) : Int :=
  match task with
  | none => -EINVAL
  | some t =>
    if t.flags &&& PF_KTHREAD ≠ 0 then -EINVAL
    else if t.mm = none then -EINVAL
    else 0

/-- The `newpid == 0` branch of `do_restore_rebind`, entered with the index
`idx` returned by `find_snap`: drop the held reference and remove the entry,
moving the last live entry into the freed index. -/
def release_at (s : Registry) (idx : Int) : Option (Int × Registry) :=
  (rd s.snaps idx).bind fun e =>
  (match e.task with
    | some t => store (put_task_struct s t) idx (fun e => { e with task := none })
    | none => some s).bind fun s1 =>
  let s2 := { s1 with snaps_count := s1.snaps_count - 1 }
  (if idx < s2.snaps_count then
      (rd s2.snaps s2.snaps_count).bind fun last => store s2 idx (fun _ => last)
    else some s2).bind fun s3 =>
  some (0, s3)

/-- The tail of the `newpid != 0` branch of `do_restore_rebind`, after the
candidate was validated: take the new reference, drop the old one, and
overwrite the entry in place. -/
def rebind_at (s : Registry) (idx : Int) (newpid : Int) (new_task : task_struct) :
    Option (Int × Registry) :=
  let s0 := get_task_struct s new_task.addr
  (rd s0.snaps idx).bind fun e =>
  let s1 := match e.task with
    | some t => put_task_struct s0 t
    | none => s0
  (store s1 idx (fun e => { e with task := some new_task.addr })).bind fun s2 =>
  (store s2 idx (fun e => { e with pid := newpid })).bind fun s3 =>
  (store s3 idx (fun e => { e with uid := new_task.uid })).bind fun s4 =>
  (store s4 idx (fun e => { e with comm := new_task.comm })).bind fun s5 =>
  (rd s5.snaps idx).bind fun _ =>
  some (0, s5)

/-- The function `do_restore_rebind(oldpid, newpid)`. -/
def do_restore_rebind (procs : Int → pid_lookup) (s : Registry) (oldpid newpid : Int) :
    Option (Int × Registry) :=
  (find_snap s oldpid).bind fun idx =>
  if idx < 0 then some (-EINVAL, s)
  else if newpid = 0 then release_at s idx
  else
    match procs newpid with
    | .no_pid => some (-EINVAL, s)
    | .no_task => some (-EINVAL, s)
    | .task new_task =>
      if validate_user_task (some new_task) < 0 then some (-EINVAL, s)
      else rebind_at s idx newpid new_task

/-- States reachable from the freshly initialised module by any sequence of
`do_snapshot` and `do_restore_rebind` calls, each with an arbitrary outcome of
the process lookup. -/
inductive Reachable : Registry → Prop where
  | init : Reachable init
  | snapshot {s s' : Registry} {r : Int} (procs : Int → pid_lookup) (pid : Int) :
      Reachable s → do_snapshot procs s pid = some (r, s') → Reachable s'
  | restore {s s' : Registry} {r : Int} (procs : Int → pid_lookup) (oldpid newpid : Int) :
      Reachable s → do_restore_rebind procs s oldpid newpid = some (r, s') → Reachable s'

/-- The live entries `snaps[0 .. snaps_count - 1]`. -/
def live (s : Registry) : List snap_entry :=
  s.snaps.take s.snaps_count.toNat

/-- The slot ids of the live entries, in index order. -/
def live_pids (s : Registry) : List Int :=
  (live s).map (fun e => e.pid)

/-- The state respects the array: `snaps` has `MAX_SNAPS` rows and
`0 ≤ snaps_count ≤ MAX_SNAPS`. -/
def InBounds (s : Registry) : Prop :=
  s.snaps.length = MAX_SNAPS ∧ 0 ≤ s.snaps_count ∧ s.snaps_count ≤ (MAX_SNAPS : Int)

/-- Number of live entries whose `task` field points to `t`. -/
def holders (s : Registry) (t : Nat) : Nat :=
  (live s).countP (fun e => e.task = some t)

/-- Every live entry has a non-null task, and the registry holds on each task
exactly as many references as there are live entries pointing to it. -/
def RefsAccounted (s : Registry) : Prop :=
  (∀ e ∈ live s, e.task ≠ none) ∧ ∀ t, s.refs t = (holders s t : Int)

/-- The candidate resolves to a task that is not a kernel thread and has a
user memory context. -/
def eligible (l : pid_lookup) : Prop :=
  ∃ t, l = .task t ∧ t.flags &&& PF_KTHREAD = 0 ∧ t.mm ≠ none

/-- The row that a successful capture or rebind of `pid`, resolved to the
task `t`, leaves in the table. -/
def entry_of (pid : Int) (t : task_struct) : snap_entry :=
  { pid := pid, task := some t.addr, uid := t.uid, comm := t.comm }

/-- The reference counts after dropping the reference held by the row `e`
(nothing is dropped when its task pointer is `NULL`). -/
def refs_after_drop (refs : Nat → Int) (e : snap_entry) : Nat → Int :=
  match e.task with
  | some t => fun x => if x = t then refs x - 1 else refs x
  | none => refs

/-- Closed form of the state after a successful capture of `pid`, resolved
to `t`. -/
def captured (s : Registry) (pid : Int) (t : task_struct) : Registry :=
  { snaps := s.snaps.set s.snaps_count.toNat (entry_of pid t)
    snaps_count := s.snaps_count + 1
    refs := fun x => if x = t.addr then s.refs x + 1 else s.refs x }

/-- Closed form of the state after a successful rebind of row `i`, which held
`e`, to `newpid` resolved to `t`. -/
def rebound (s : Registry) (i : Nat) (newpid : Int) (t : task_struct) (e : snap_entry) :
    Registry :=
  { snaps := s.snaps.set i (entry_of newpid t)
    snaps_count := s.snaps_count
    refs := refs_after_drop (fun x => if x = t.addr then s.refs x + 1 else s.refs x) e }

/-- Closed form of the state after releasing row `i`, which held `e`, when
`last` is the last live row. -/
def released (s : Registry) (i : Nat) (e last : snap_entry) : Registry :=
  { snaps := if i < s.snaps_count.toNat - 1 then s.snaps.set i last
             else s.snaps.set i { e with task := none }
    snaps_count := s.snaps_count - 1
    refs := refs_after_drop s.refs e }

/-- A user task at address `7` (pid 100 in the examples). -/
def taskA : task_struct := { addr := 7, flags := 0, mm := some 1, uid := 1000, comm := [98] }

/-- A user task at address `9` (pid 250 in the examples). -/
def taskB : task_struct := { addr := 9, flags := 0, mm := some 2, uid := 1000, comm := [99] }

/-- A user task at address `11`, an earlier holder of pid 250. -/
def taskC : task_struct := { addr := 11, flags := 0, mm := some 3, uid := 1000, comm := [100] }

/-- A kernel thread at address `13`. -/
def taskK : task_struct :=
  { addr := 13, flags := 0x00200000, mm := none, uid := 0, comm := [107] }

/-- Process table in which pid 100 is `taskA`, pid 250 is `taskB`, pid 2 is
the kernel thread `taskK`, and nothing else resolves. -/
def procs1 : Int → pid_lookup := fun p =>
  if p = 100 then .task taskA else if p = 250 then .task taskB
  else if p = 2 then .task taskK else .no_pid

/-- An earlier process table in which pid 250 is `taskC`. -/
def procs0 : Int → pid_lookup := fun p =>
  if p = 250 then .task taskC else .no_pid

/-- State of a step, or the state unchanged when the step is undefined. -/
def after (r : Option (Int × Registry)) (s : Registry) : Registry :=
  match r with
  | some (_, s') => s'
  | none => s

/-- Status of a step, if defined. -/
def status (r : Option (Int × Registry)) : Option Int :=
  r.map (fun p => p.1)

/-- The state after capturing pid 100 once from the initial state. -/
def captured_once : Registry := after (do_snapshot procs1 init 100) init

/-- The state after capturing pid 100 twice. -/
def captured_twice : Registry := after (do_snapshot procs1 captured_once 100) captured_once

/-- The state after capturing pid 250 while it was `taskC`, then pid 100. -/
def captured_stale : Registry :=
  after (do_snapshot procs1 (after (do_snapshot procs0 init 250) init) 100) init

/-- The state after capturing pid 100 and then pid 250. -/
def captured_pair : Registry := after (do_snapshot procs1 captured_once 250) captured_once

/-- A table at capacity: rows `0 .. 63` hold pids `1 .. 64`, each with its own
task and one reference. -/
def full_table : Registry :=
  { snaps := (List.range 64).map fun (k : Nat) =>
      { pid := Int.ofNat k + 1, task := some k, uid := 1000, comm := [97] }
    snaps_count := 64
    refs := fun x => if x < 64 then 1 else 0 }

/-! ### The statements of a rebind, one at a time -/

/-- The statements of the commit part of `do_restore_rebind` (source lines
173 to 180), in source order. -/
inductive rebind_stmt where
  | get_new : rebind_stmt
  | put_old : rebind_stmt
  | set_task : rebind_stmt
  | set_pid : rebind_stmt
  | set_uid : rebind_stmt
  | set_comm : rebind_stmt
deriving DecidableEq, Repr

/-- The run of `rebind_at` statement by statement: the state after each
executed statement, tagged with that statement.  `put_old` is absent when the
row's task pointer is `NULL`. -/
def rebind_trace (s : Registry) (idx : Int) (newpid : Int) (new_task : task_struct) :
    Option (List (rebind_stmt × Registry)) :=
  let s0 := get_task_struct s new_task.addr
  (rd s0.snaps idx).bind fun e =>
  let dropped : List (rebind_stmt × Registry) := match e.task with
    | some t => [(rebind_stmt.put_old, put_task_struct s0 t)]
    | none => []
  let s1 := match e.task with
    | some t => put_task_struct s0 t
    | none => s0
  (store s1 idx (fun e => { e with task := some new_task.addr })).bind fun s2 =>
  (store s2 idx (fun e => { e with pid := newpid })).bind fun s3 =>
  (store s3 idx (fun e => { e with uid := new_task.uid })).bind fun s4 =>
  (store s4 idx (fun e => { e with comm := new_task.comm })).bind fun s5 =>
  some ((rebind_stmt.get_new, s0) :: dropped ++
    [(rebind_stmt.set_task, s2), (rebind_stmt.set_pid, s3), (rebind_stmt.set_uid, s4),
     (rebind_stmt.set_comm, s5)])

/-- What a trace entry shows of row `i`: the statement, the row's task
pointer, and the registry-held count of the task `x`. -/
def trace_view (i : Int) (x : Nat) (p : rebind_stmt × Registry) :
    rebind_stmt × Option (Option Nat) × Int :=
  (p.1, (rd p.2.snaps i).map (fun e => e.task), p.2.refs x)

/-- In the state `σ`, row `i` does not name a task on which the registry
holds no reference. -/
def row_task_held (i : Int) (σ : Registry) : Prop :=
  ∀ e x, rd σ.snaps i = some e → e.task = some x → 1 ≤ σ.refs x

/-! ### The command-line tool (`src/user/cli.c`)

C strings are lists of byte values without the terminating NUL.  The results
of the external calls of one menu round (`scanf`, `fork`, `waitpid`, `kill`,
`readlink`, `/proc` reads, `ioctl`) are inputs of the model; what the tool
does to the outside world is returned as a list of `cli_action`s in program
order.  Debug output and the listing of the saved table are left out. -/

/-- Capacity of the saved table: `#define MAX_SAVED 64`. -/
def MAX_SAVED : Nat := 64

/-- Size of the name buffers: `#define NAME_LEN 512`. -/
def NAME_LEN : Nat := 512

/-- Linux errno value `ESRCH`. -/
def ESRCH : Int := 3

/-- The bytes of a string literal. -/
def cs (s : String) : List Nat := s.toList.map Char.toNat

/-- One row of the process listing, `Process`. -/
structure Process where
  pid : Int
  name : List Nat
  is_gui : Int
deriving DecidableEq, Repr

/-- One saved record, `SavedProcess`.  `cmdline` is the malloc'd buffer of
NUL-separated arguments, `none` for `NULL`. -/
structure SavedProcess where
  old_pid : Int
  name : List Nat
  exe_path : List Nat
  cmdline : Option (List Nat)
  tty_path : List Nat
deriving DecidableEq, Repr

/-- The globals `saved` and `saved_count`. -/
structure Cli where
  saved : List SavedProcess
  saved_count : Int
deriving DecidableEq, Repr

/-- Array read `saved[i]`; `none` when `i` is outside the array. -/
def saved_rd (a : List SavedProcess) (i : Int) : Option SavedProcess :=
  if 0 ≤ i then a[i.toNat]? else none

/-- Array write `saved[i] = x`; `none` when `i` is outside the array. -/
def saved_wr (a : List SavedProcess) (i : Int) (x : SavedProcess) :
    Option (List SavedProcess) :=
  if 0 ≤ i ∧ i.toNat < a.length then some (a.set i.toNat x) else none

/-- The call `strrchr(p, c)` for a non-NUL `c`: the tail of `p` starting at the
last occurrence of `c`, `none` for `NULL`. -/
def strrchr : List Nat → Nat → Option (List Nat)
  | [], _ => none
  | x :: xs, c =>
    match strrchr xs c with
    | some r => some r
    | none => if x = c then some (x :: xs) else none

/-- The helper `path_basename_ptr(p)`; 47 is the slash. -/
def path_basename_ptr (p : List Nat) : Option (List Nat) :=
  if p = [] then none
  else
    match strrchr p 47 with
    | some b => some b.tail
    | none => some p

/-- The text after the last slash of `p`, or all of `p` when it has no slash. -/
def text_after_last_slash (p : List Nat) : List Nat :=
  (p.reverse.takeWhile (fun ch => ch ≠ 47)).reverse

/-- The computation of `valid` in the restore branch of `main` (source lines
824 to 846) from the saved record and the two strings read from `/proc`. -/
def restore_valid (sp : SavedProcess) (exe_read comm_read : List Nat) : Int :=
  if sp.exe_path ≠ [] ∧ exe_read ≠ [] then
    if sp.exe_path = exe_read then 1
    else
      match path_basename_ptr sp.exe_path, path_basename_ptr exe_read with
      | some exp_base, some got_base => if exp_base = got_base then 1 else 0
      | _, _ => 0
  else if sp.name ≠ [] ∧ comm_read ≠ [] then
    if sp.name = comm_read then 1 else 0
  else 1

/-- What `readlink(path, buf, NAME_LEN - 1)` leaves in a zeroed or then
NUL-terminated buffer: the link text cut to the buffer, nothing on failure. -/
def link_text (l : Option (List Nat)) : List Nat :=
  match l with
  | some x => x.take (NAME_LEN - 1)
  | none => []

/-- The C string that `fgets` followed by cutting at the newline (byte 10)
leaves in `comm_read`: the bytes read before the first newline or NUL; `none`
when the file cannot be opened or read. -/
def comm_text (l : Option (List Nat)) : List Nat :=
  match l with
  | some x => (x.take (NAME_LEN - 1)).takeWhile (fun ch => ch ≠ 10 ∧ ch ≠ 0)
  | none => []

/-- The C string at the start of a buffer: the bytes before the first NUL. -/
def c_string (buf : List Nat) : List Nat :=
  buf.takeWhile (fun ch => ch ≠ 0)

/-- The controlling terminal saved at capture: the link of fd 0, or of fd 1
when the first `readlink` returned nothing. -/
def read_tty (fd0 fd1 : Option (List Nat)) : List Nat :=
  if link_text fd0 ≠ [] then link_text fd0 else link_text fd1

/-- Messages of the tool that report an outcome. -/
inductive cli_msg where
  | no_processes : cli_msg
  | pid_not_found (pid : Int) : cli_msg
  | snapshot_ioctl_failed : cli_msg
  | saved_table_full : cli_msg
  | snapshot_recorded (pid : Int) : cli_msg
  | no_saved : cli_msg
  | old_pid_not_found (oldpid : Int) : cli_msg
  | spawn_failed : cli_msg
  | child_exited (newpid : Int) : cli_msg
  | validation_failed (newpid : Int) : cli_msg
  | validated (newpid : Int) : cli_msg
  | child_missing (newpid : Int) : cli_msg
  | restore_ioctl_failed : cli_msg
  | released (oldpid : Int) : cli_msg
  | rebound (oldpid newpid : Int) : cli_msg
deriving DecidableEq, Repr

/-- What the tool does to the outside world: the two control requests, the
termination command `system("pkill -TERM -P pid; kill -9 pid")`, the `fork` of
`spawn_from_saved`, `kill(newpid, SIGKILL)` with its `waitpid`, the call of
`launch_in_new_terminal`, and the outcome messages. -/
inductive cli_action where
  | ioctl_snapshot (pid : Int) : cli_action
  | ioctl_restore (oldpid newpid : Int) : cli_action
  | terminate (pid : Int) : cli_action
  | spawn (old_pid : Int) : cli_action
  | kill_child (newpid : Int) : cli_action
  | launch_in_new_terminal (old_pid : Int) : cli_action
  | print (m : cli_msg) : cli_action
deriving DecidableEq, Repr

/-- The results of the external calls of one "Snapshot & Kill" round:
`list_running`, `scanf`, `read_cmdline`, the `readlink` of `read_exe_path`,
the return value of `ioctl(fd, IOCTL_SNAPSHOT, pid)`, and the two `readlink`s
of the fds. -/
structure capture_inputs where
  running : List Process
  pid : Option Int
  cmdline : Option (List Nat)
  exe_link : Option (List Nat)
  ioctl_ret : Int
  fd0 : Option (List Nat)
  fd1 : Option (List Nat)

/-- The field assignments to `saved[saved_count]` (source lines 602 to 639),
applied in order to the row's previous content `old`. -/
def fill_record (old : SavedProcess) (inp : capture_inputs) (pid : Int) : SavedProcess :=
  let r1 := { old with old_pid := pid }
  let r2 := { r1 with cmdline := inp.cmdline }
  let r3 := match inp.running.find? (fun p => p.pid = pid) with
    | some p => { r2 with name := p.name.take (NAME_LEN - 1) }
    | none => r2
  let r4 := match inp.cmdline with
    | some buf => { r3 with name := (c_string buf).take (NAME_LEN - 1) }
    | none => r3
  let r5 := { r4 with exe_path := (link_text inp.exe_link).take (NAME_LEN - 1) }
  { r5 with tty_path := read_tty inp.fd0 inp.fd1 }

/-- The `choice == 1` branch of `main`: the actions in program order and the
new saved table. -/
def capture_flow (c : Cli) (inp : capture_inputs) : Option (List cli_action × Cli) :=
  if inp.running.length = 0 then some ([cli_action.print cli_msg.no_processes], c)
  else
    match inp.pid with
    | none => some ([], c)
    | some pid =>
      if inp.running.any (fun p => p.pid = pid) = false then
        some ([cli_action.print (cli_msg.pid_not_found pid)], c)
      else if inp.ioctl_ret < 0 then
        some ([cli_action.ioctl_snapshot pid,
               cli_action.print cli_msg.snapshot_ioctl_failed], c)
      else
        (if c.saved_count < (MAX_SAVED : Int) then
            (saved_rd c.saved c.saved_count).bind fun old =>
            (saved_wr c.saved c.saved_count (fill_record old inp pid)).bind fun a =>
            some ([], ({ saved := a, saved_count := c.saved_count + 1 } : Cli))
          else some ([cli_action.print cli_msg.saved_table_full], c)).bind fun r =>
        some ([cli_action.ioctl_snapshot pid] ++ r.1 ++
          [cli_action.terminate pid, cli_action.print (cli_msg.snapshot_recorded pid)], r.2)

/-- The search loop for `idx` in the `choice == 2` branch, with `k` iterations
left and loop variable `i`. -/
def find_saved_loop (saved : List SavedProcess) (oldpid : Int) : Nat → Int → Option Int
  | 0, _ => some (-1)
  | k + 1, i =>
    match saved_rd saved i with
    | none => none
    | some r => if r.old_pid = oldpid then some i else find_saved_loop saved oldpid k (i + 1)

/-- The index of the first saved record with `old_pid == oldpid`, or `-1`. -/
def find_saved (c : Cli) (oldpid : Int) : Option Int :=
  find_saved_loop c.saved oldpid c.saved_count.toNat 0

/-- The shifting loop of `remove_saved_index`, `saved[i] = saved[i + 1]`, with
`k` iterations left. -/
def shift_loop (a : List SavedProcess) : Nat → Int → Option (List SavedProcess)
  | 0, _ => some a
  | k + 1, i =>
    (saved_rd a (i + 1)).bind fun x =>
    (saved_wr a i x).bind fun a' =>
    shift_loop a' k (i + 1)

/-- The function `remove_saved_index(idx)`. -/
def remove_saved_index (c : Cli) (idx : Int) : Option Cli :=
  if idx < 0 ∨ idx ≥ c.saved_count then some c
  else
    (saved_rd c.saved idx).bind fun _ =>
    (shift_loop c.saved (c.saved_count - 1 - idx).toNat idx).bind fun a =>
    some { saved := a, saved_count := c.saved_count - 1 }

/-- The return value of `spawn_from_saved` in terms of what `fork` returned;
`none` in the child, which ends in `exec` or `_exit` and never returns. -/
def spawn_from_saved (fork_ret : Int) : Option Int :=
  if fork_ret < 0 then some (-1)
  else if fork_ret = 0 then none
  else some fork_ret

/-- The `waitpid` polling loop (source lines 721 to 741) with `k` iterations
left; the result is `child_exited`. -/
def poll_child (waitpid : Nat → Int) (newpid : Int) : Nat → Nat → Int
  | 0, _ => 0
  | k + 1, iter =>
    if waitpid iter = -1 then 0
    else if waitpid iter = 0 then poll_child waitpid newpid k (iter + 1)
    else if waitpid iter = newpid then 1
    else poll_child waitpid newpid k (iter + 1)

/-- The liveness probe loop (source lines 782 to 798) with `k` iterations
left; `kill0 t` is the return value of `kill(newpid, 0)` and the `errno` it
left; the result is `alive`. -/
def probe_alive (kill0 : Nat → Int × Int) : Nat → Nat → Int
  | 0, _ => 0
  | k + 1, t =>
    if (kill0 t).1 = 0 then 1
    else if (kill0 t).2 = ESRCH then probe_alive kill0 k (t + 1)
    else 1

/-- Some poll of `waitpid(newpid, &status, WNOHANG)` among the 25 of the window
returned `newpid`, and no earlier poll returned `-1`: the child was seen to
exit within the poll window. -/
def child_exited_in_window (waitpid : Nat → Int) (newpid : Int) : Prop :=
  ∃ iter, iter < 25 ∧ waitpid iter = newpid ∧ ∀ j, j < iter → waitpid j ≠ -1

/-- Some probe `kill(newpid, 0)` among the 20 tries returned `0` or failed with
an `errno` other than `ESRCH`: the probe found the process to exist. -/
def probe_found_alive (kill0 : Nat → Int × Int) : Prop :=
  ∃ t, t < 20 ∧ ((kill0 t).1 = 0 ∨ (kill0 t).2 ≠ ESRCH)

/-- The results of the external calls of one "Restore" round: `scanf`, the
`fork` of `spawn_from_saved`, the polled `waitpid`s, the `kill(newpid, 0)`
probes, the `readlink` of `/proc/<newpid>/exe`, the line read from
`/proc/<newpid>/comm`, and the return value of the `IOCTL_RESTORE` request as
a function of the request. -/
structure restore_inputs where
  oldpid : Option Int
  fork_ret : Int
  waitpid : Nat → Int
  kill0 : Nat → Int × Int
  exe_link : Option (List Nat)
  comm_file : Option (List Nat)
  ioctl_ret : Int → Int → Int

/-- The message after an `IOCTL_RESTORE` request with `newpid == 0`. -/
def release_msg (ret : Int) (oldpid : Int) : cli_msg :=
  if ret < 0 then cli_msg.restore_ioctl_failed else cli_msg.released oldpid

/-- The `choice == 2` branch of `main`: the actions in program order and the
new saved table. -/
def restore_flow (c : Cli) (inp : restore_inputs) : Option (List cli_action × Cli) :=
  if c.saved_count = 0 then some ([cli_action.print cli_msg.no_saved], c)
  else
    match inp.oldpid with
    | none => some ([], c)
    | some oldpid =>
      (find_saved c oldpid).bind fun idx =>
      if idx < 0 then some ([cli_action.print (cli_msg.old_pid_not_found oldpid)], c)
      else
        (saved_rd c.saved idx).bind fun sp =>
        (spawn_from_saved inp.fork_ret).bind fun newpid =>
        if newpid < 0 then
          some ([cli_action.spawn sp.old_pid, cli_action.print cli_msg.spawn_failed], c)
        else if poll_child inp.waitpid newpid 25 0 ≠ 0 then
          (remove_saved_index c idx).bind fun c' =>
          some ([cli_action.spawn sp.old_pid, cli_action.print (cli_msg.child_exited newpid),
                 cli_action.ioctl_restore oldpid 0,
                 cli_action.print (release_msg (inp.ioctl_ret oldpid 0) oldpid)], c')
        else if probe_alive inp.kill0 20 0 ≠ 0 then
          if restore_valid sp (link_text inp.exe_link) (comm_text inp.comm_file) = 0 then
            (remove_saved_index c idx).bind fun c' =>
            some ([cli_action.spawn sp.old_pid, cli_action.kill_child newpid,
                   cli_action.print (cli_msg.validation_failed newpid),
                   cli_action.launch_in_new_terminal sp.old_pid,
                   cli_action.ioctl_restore sp.old_pid 0,
                   cli_action.print (release_msg (inp.ioctl_ret sp.old_pid 0) sp.old_pid)], c')
          else
            let new := if probe_alive inp.kill0 20 0 ≠ 0 then newpid else 0
            (remove_saved_index c idx).bind fun c' =>
            some ([cli_action.spawn sp.old_pid, cli_action.print (cli_msg.validated newpid),
                   cli_action.ioctl_restore oldpid new,
                   cli_action.print
                     (if inp.ioctl_ret oldpid new < 0 then cli_msg.restore_ioctl_failed
                      else if new ≠ 0 then cli_msg.rebound oldpid new
                      else cli_msg.released oldpid)], c')
        else
          (remove_saved_index c idx).bind fun c' =>
          some ([cli_action.spawn sp.old_pid, cli_action.print (cli_msg.child_missing newpid),
                 cli_action.launch_in_new_terminal sp.old_pid,
                 cli_action.ioctl_restore sp.old_pid 0,
                 cli_action.print (release_msg (inp.ioctl_ret sp.old_pid 0) sp.old_pid)], c')

/-- The `IOCTL_RESTORE` requests among the actions, in order. -/
def restore_requests (acts : List cli_action) : List (Int × Int) :=
  acts.filterMap fun a =>
    match a with
    | cli_action.ioctl_restore o n => some (o, n)
    | _ => none

/-- The live saved records `saved[0 .. saved_count - 1]`. -/
def live_saved (c : Cli) : List SavedProcess :=
  c.saved.take c.saved_count.toNat

/-- The saved table respects its array: `MAX_SAVED` rows and
`0 ≤ saved_count ≤ MAX_SAVED`. -/
def CliInBounds (c : Cli) : Prop :=
  c.saved.length = MAX_SAVED ∧ 0 ≤ c.saved_count ∧ c.saved_count ≤ (MAX_SAVED : Int)

/-! ### The control channel (`snapshot_ioctl`) and `src/Server/snapshot_user.c` -/

/-- Request code `_IOW('s', 1, int)` as the Linux `_IOW` macro encodes it. -/
def IOCTL_SNAPSHOT : Nat := 0x40047301

/-- Request code `_IOW('s', 2, struct snap_ioc)`. -/
def IOCTL_RESTORE : Nat := 0x40087302

/-- Linux errno value `EFAULT`. -/
def EFAULT : Int := 14

/-- The cast `(pid_t)arg` of an `unsigned long`: the low 32 bits read as a
signed integer. -/
def to_pid_t (arg : Nat) : Int :=
  if arg % 2 ^ 32 < 2 ^ 31 then ((arg % 2 ^ 32 : Nat) : Int)
  else ((arg % 2 ^ 32 : Nat) : Int) - 2 ^ 32

/-- The cast `(unsigned long)pid` of an `int` on a 64-bit machine. -/
def to_ulong (pid : Int) : Nat :=
  (pid % 2 ^ 64).toNat

/-- The handler `snapshot_ioctl(file, cmd, arg)`.  `user a` is the
`struct snap_ioc` that `copy_from_user` reads at user address `a`, `none` when
the copy fails. -/
def snapshot_ioctl (procs : Int → pid_lookup) (s : Registry) (cmd arg : Nat)
    (user : Nat → Option (Int × Int)) : Option (Int × Registry) :=
  if cmd = IOCTL_SNAPSHOT then do_snapshot procs s (to_pid_t arg)
  else if cmd = IOCTL_RESTORE then
    match user arg with
    | none => some (-EFAULT, s)
    | some ioc => do_restore_rebind procs s ioc.1 ioc.2
  else some (-EINVAL, s)

/-- What the C library's `ioctl` returns for the handler's status `r`. -/
def libc_ioctl_ret (r : Int) : Int :=
  if r < 0 then -1 else r

/-- The request `ioctl(fd, IOCTL_RESTORE, &ioc)` of the command-line tool with
`ioc = (oldpid, newpid)` in readable user memory. -/
def kernel_restore (procs : Int → pid_lookup) (k : Registry) (oldpid newpid : Int) :
    Option (Int × Registry) :=
  snapshot_ioctl procs k IOCTL_RESTORE 0 (fun _ => some (oldpid, newpid))

/-- The registry after the handler has served, in order, the control requests
among the actions. -/
def serve (procs : Int → pid_lookup) : Registry → List cli_action → Option Registry
  | k, [] => some k
  | k, cli_action.ioctl_restore o n :: rest =>
    (kernel_restore procs k o n).bind fun r => serve procs r.2 rest
  | k, cli_action.ioctl_snapshot p :: rest =>
    (snapshot_ioctl procs k IOCTL_SNAPSHOT (to_ulong p) (fun _ => none)).bind fun r =>
    serve procs r.2 rest
  | k, _ :: rest => serve procs k rest

/-- The value `ioctl(fd, IOCTL_RESTORE, &ioc)` returns to the tool when the
registry is `k`, as a function of the request. -/
def kernel_answer (procs : Int → pid_lookup) (k : Registry) : Int → Int → Int :=
  fun o n =>
    match kernel_restore procs k o n with
    | some r => libc_ioctl_ret r.1
    | none => -1

/-- One "Restore" round of the tool against the registry `k`: the value each
`IOCTL_RESTORE` request returns is the one the handler computes, and the
registry afterwards is the one left by the requests issued. -/
def restore_system (procs : Int → pid_lookup) (k : Registry) (c : Cli)
    (inp : restore_inputs) : Option (List cli_action × Cli × Registry) :=
  (restore_flow c { inp with ioctl_ret := kernel_answer procs k }).bind fun r =>
  (serve procs k r.1).bind fun k' =>
  some (r.1, r.2, k')

/-- The helper `is_number(s)` for a non-null string; 48 to 57 are the digits. -/
def is_number (s : List Nat) : Int :=
  if s.all (fun ch => decide (48 ≤ ch ∧ ch ≤ 57)) then 1 else 0

/-- The value `atoi(s)` of a string of digits as the C library computes it:
the decimal value, saturated at `LONG_MAX` by `strtol`, then cut to an `int`
(the low 32 bits read as a signed integer). -/
def atoi (s : List Nat) : Int :=
  to_pid_t (min (s.foldl (fun acc ch => acc * 10 + (ch - 48)) 0) (2 ^ 63 - 1))

/-- The environment of one run of `snapshot_user snapshot <pid>`: the value of
`SNAPSHOT_ARG_MODE`, whether `SNAPSHOT_MOCK` enables mock mode, the result of
`open(DEVICE)`, the address of the parameter `pid` inside
`try_ioctl_snapshot_ptr`, and the value of `errno` before the request. -/
structure user_env where
  modeenv : Option (List Nat)
  mock : Bool
  open_fd : Int
  addr : Nat
  errno0 : Int

/-- What a run of `snapshot_user snapshot <pid>` produces: its exit code, the
pid in the `OK snapshot <pid>` line if one was printed, the candidate ids the
handler passed to `do_snapshot` (in order), and the registry afterwards. -/
structure user_outcome where
  exit_code : Int
  ok_pid : Option Int
  candidates : List Int
  kernel : Registry

/-- The value `try_ioctl_snapshot_*` returns for the handler's status `r`:
`0` when `ioctl` returned `0`, else `-errno`. -/
def try_ret (errno0 : Int) (r : Int) : Int :=
  if libc_ioctl_ret r = 0 then 0 else if r < 0 then r else -errno0

/-- The function `try_ioctl_snapshot_ptr(fd, pid)`: the request argument is the
address of its parameter. -/
def try_ioctl_snapshot_ptr (procs : Int → pid_lookup) (k : Registry) (env : user_env) :
    Option (Int × Registry) :=
  (snapshot_ioctl procs k IOCTL_SNAPSHOT env.addr (fun _ => none)).bind fun r =>
  some (try_ret env.errno0 r.1, r.2)

/-- The function `try_ioctl_snapshot_val(fd, pid)`: the request argument is
`(unsigned long)pid`. -/
def try_ioctl_snapshot_val (procs : Int → pid_lookup) (k : Registry) (env : user_env)
    (pid : Int) : Option (Int × Registry) :=
  (snapshot_ioctl procs k IOCTL_SNAPSHOT (to_ulong pid) (fun _ => none)).bind fun r =>
  some (try_ret env.errno0 r.1, r.2)

/-- The `snapshot` command of `main` in `snapshot_user.c`, with `argv2` the
third argument if present. -/
def snapshot_user_snapshot (procs : Int → pid_lookup) (k : Registry) (env : user_env)
    (argv2 : Option (List Nat)) : Option user_outcome :=
  if env.mock = false ∧ env.open_fd < 0 then some ⟨3, none, [], k⟩
  else
    match argv2 with
    | none => some ⟨4, none, [], k⟩
    | some a =>
      if is_number a = 0 then some ⟨4, none, [], k⟩
      else
        let pid := atoi a
        if env.mock then some ⟨0, some pid, [], k⟩
        else if env.modeenv = some (cs "ptr") then
          (try_ioctl_snapshot_ptr procs k env).bind fun r =>
          if r.1 = 0 then some ⟨0, some pid, [to_pid_t env.addr], r.2⟩
          else some ⟨5, none, [to_pid_t env.addr], r.2⟩
        else if env.modeenv = some (cs "val") then
          (try_ioctl_snapshot_val procs k env pid).bind fun r =>
          if r.1 = 0 then some ⟨0, some pid, [to_pid_t (to_ulong pid)], r.2⟩
          else some ⟨5, none, [to_pid_t (to_ulong pid)], r.2⟩
        else
          (try_ioctl_snapshot_ptr procs k env).bind fun r =>
          if r.1 = 0 then some ⟨0, some pid, [to_pid_t env.addr], r.2⟩
          else
            (try_ioctl_snapshot_val procs r.2 env pid).bind fun r2 =>
            if r2.1 = 0 then
              some ⟨0, some pid, [to_pid_t env.addr, to_pid_t (to_ulong pid)], r2.2⟩
            else some ⟨5, none, [to_pid_t env.addr, to_pid_t (to_ulong pid)], r2.2⟩

/-! ### Concrete saved tables and inputs used in the examples -/

/-- An unused row of the saved table. -/
def blank_saved : SavedProcess :=
  { old_pid := 0, name := [], exe_path := [], cmdline := none, tty_path := [] }

/-- The saved table at program start. -/
def cli_init : Cli := { saved := List.replicate MAX_SAVED blank_saved, saved_count := 0 }

/-- A saved record for pid 100 with name `foo` and executable `/usr/bin/foo`. -/
def rec100 : SavedProcess :=
  { old_pid := 100, name := cs "foo", exe_path := cs "/usr/bin/foo", cmdline := none,
    tty_path := [] }

/-- A saved table holding only `rec100`. -/
def cli_one : Cli :=
  { saved := rec100 :: List.replicate 63 blank_saved, saved_count := 1 }

/-- A saved table at capacity: rows `0 .. 63` hold old pids `1 .. 64`. -/
def cli_full : Cli :=
  { saved := (List.range 64).map fun (k : Nat) =>
      { old_pid := Int.ofNat k + 1, name := cs "x", exe_path := [], cmdline := none,
        tty_path := [] }
    saved_count := 64 }

/-- A capture round choosing pid 500, which is in the process listing, with
the capture request answered by `ret`. -/
def capture_500 (ret : Int) : capture_inputs :=
  { running := [{ pid := 500, name := cs "vim", is_gui := 0 }], pid := some 500,
    cmdline := none, exe_link := some (cs "/usr/bin/vim"), ioctl_ret := ret,
    fd0 := some (cs "/dev/pts/3"), fd1 := none }

/-- A restore round for old pid 100 in which `fork` returned `fork_ret`, the
child keeps running, the probe finds it, `/proc/<newpid>/exe` reads as
`exe` and `/proc/<newpid>/comm` as `comm`, and every request returns `0`. -/
def restore_100 (fork_ret : Int) (exe comm : Option (List Nat)) : restore_inputs :=
  { oldpid := some 100, fork_ret := fork_ret, waitpid := fun _ => 0,
    kill0 := fun _ => (0, 0), exe_link := exe, comm_file := comm,
    ioctl_ret := fun _ _ => 0 }

/-- A restore round for old pid 100 in which `fork` returned 250, the child
keeps running, the probe finds it, and it reports the executable
`/opt/bin/foo`. -/
def restore_100_alive : restore_inputs :=
  restore_100 250 (some (cs "/opt/bin/foo")) none

/-- A restore round for old pid 100 in which `fork` returned 250 and the
fourth poll of `waitpid` returns 250: the child exited within the window. -/
def restore_100_exited : restore_inputs :=
  { oldpid := some 100, fork_ret := 250, waitpid := fun i => if i = 3 then 250 else 0,
    kill0 := fun _ => (0, 0), exe_link := some (cs "/usr/bin/foo"), comm_file := none,
    ioctl_ret := fun _ _ => 0 }

/-- A restore round for old pid 100 in which `fork` returned 250, the child
keeps running, and every probe `kill(250, 0)` fails with `ESRCH`. -/
def restore_100_missing : restore_inputs :=
  { oldpid := some 100, fork_ret := 250, waitpid := fun _ => 0,
    kill0 := fun _ => (-1, 3), exe_link := some (cs "/usr/bin/foo"), comm_file := none,
    ioctl_ret := fun _ _ => 0 }

/-- Process table in which pid 100 is `taskA` and pid 256 is `taskB`. -/
def procs2 : Int → pid_lookup := fun p =>
  if p = 100 then .task taskA else if p = 256 then .task taskB else .no_pid

/-- A run with `SNAPSHOT_ARG_MODE=ptr` in which the parameter `pid` of
`try_ioctl_snapshot_ptr` lives at address `0x7ffc00000100`. -/
def env_ptr : user_env :=
  { modeenv := some (cs "ptr"), mock := false, open_fd := 3, addr := 0x7ffc00000100,
    errno0 := 0 }

/-! ### Array access at natural-number indices -/

theorem rd_nat (a : List snap_entry) (n : Nat) : rd a (n : Int) = a[n]? := by
  simp [rd]

theorem rd_neg (a : List snap_entry) (i : Int) (h : i < 0) : rd a i = none := by
  simp [rd, h]

theorem upd_nat (a : List snap_entry) (n : Nat) (f : snap_entry → snap_entry)
    (h : n < a.length) : upd a (n : Int) f = some (a.set n (f a[n])) := by
  simp [upd, rd_nat, List.getElem?_eq_getElem h]

theorem store_nat (s : Registry) (n : Nat) (f : snap_entry → snap_entry)
    (h : n < s.snaps.length) :
    store s (n : Int) f = some { s with snaps := s.snaps.set n (f s.snaps[n]) } := by
  simp [store, upd_nat _ _ _ h]

theorem InBounds.count_eq {s : Registry} (h : InBounds s) :
    s.snaps_count = (s.snaps_count.toNat : Int) := by
  have := h.2.1
  omega

theorem InBounds.toNat_le {s : Registry} (h : InBounds s) :
    s.snaps_count.toNat ≤ s.snaps.length := by
  have h1 := h.1
  have h2 := h.2.2
  have h3 := h.2.1
  omega

theorem live_length {s : Registry} (h : InBounds s) :
    (live s).length = s.snaps_count.toNat := by
  simp [live, h.toNat_le]

theorem live_getElem? {s : Registry} (j : Nat) (hj : j < s.snaps_count.toNat) :
    (live s)[j]? = s.snaps[j]? := by
  simp [live, List.getElem?_take, hj]

/-! ### The lookup loop -/

/-- What `find_snap` computes on the rows `m .. m + k - 1`: `-1` when none of
them has the pid, else the first index that has it. -/
theorem find_snap_loop_spec (snaps : List snap_entry) (pid : Int) :
    ∀ (k m : Nat), m + k ≤ snaps.length →
      ∃ r, find_snap_loop snaps pid k (m : Int) = some r ∧
        ((r = -1 ∧ ∀ j, m ≤ j → j < m + k → ∀ e, snaps[j]? = some e → e.pid ≠ pid) ∨
         (∃ n : Nat, r = (n : Int) ∧ m ≤ n ∧ n < m + k ∧
            (∃ e, snaps[n]? = some e ∧ e.pid = pid) ∧
            ∀ j, m ≤ j → j < n → ∀ e, snaps[j]? = some e → e.pid ≠ pid)) := by
  intro k
  induction k with
  | zero =>
    intro m _
    refine ⟨-1, rfl, Or.inl ⟨rfl, ?_⟩⟩
    intro j h1 h2
    omega
  | succ k ih =>
    intro m hm
    have hlt : m < snaps.length := by omega
    have hrd : rd snaps (m : Int) = some snaps[m] := by
      rw [rd_nat, List.getElem?_eq_getElem hlt]
    by_cases hp : snaps[m].pid = pid
    · refine ⟨(m : Int), ?_, Or.inr ⟨m, rfl, le_refl _, by omega, ?_, ?_⟩⟩
      · simp [find_snap_loop, hrd, hp]
      · exact ⟨snaps[m], List.getElem?_eq_getElem hlt, hp⟩
      · intro j h1 h2
        omega
    · obtain ⟨r, hr, hspec⟩ := ih (m + 1) (by omega)
      refine ⟨r, ?_, ?_⟩
      · have : ((m : Int) + 1) = ((m + 1 : Nat) : Int) := by push_cast; rfl
        rw [find_snap_loop, hrd]
        simp only [hp, if_false]
        rw [this, hr]
      · rcases hspec with ⟨h1, h2⟩ | ⟨n, h1, h2, h3, h4, h5⟩
        · refine Or.inl ⟨h1, ?_⟩
          intro j hj1 hj2 e he
          by_cases hjm : j = m
          · subst hjm
            rw [List.getElem?_eq_getElem hlt] at he
            cases he
            exact hp
          · exact h2 j (by omega) (by omega) e he
        · refine Or.inr ⟨n, h1, by omega, by omega, h4, ?_⟩
          intro j hj1 hj2 e he
          by_cases hjm : j = m
          · subst hjm
            rw [List.getElem?_eq_getElem hlt] at he
            cases he
            exact hp
          · exact h5 j (by omega) hj2 e he

/-- On a state within bounds `find_snap` returns, and its result is `-1` with
no live entry carrying the pid, or the first live index carrying it. -/
theorem find_snap_spec {s : Registry} (h : InBounds s) (pid : Int) :
    ∃ r, find_snap s pid = some r ∧
      ((r = -1 ∧ pid ∉ live_pids s) ∨
       (∃ n : Nat, r = (n : Int) ∧ n < s.snaps_count.toNat ∧
          (∃ e, s.snaps[n]? = some e ∧ e.pid = pid) ∧
          ∀ j, j < n → ∀ e, s.snaps[j]? = some e → e.pid ≠ pid)) := by
  obtain ⟨r, hr, hspec⟩ :=
    find_snap_loop_spec s.snaps pid s.snaps_count.toNat 0 (by simpa using h.toNat_le)
  refine ⟨r, by simpa [find_snap] using hr, ?_⟩
  rcases hspec with ⟨h1, h2⟩ | ⟨n, h1, _, h3, h4, h5⟩
  · refine Or.inl ⟨h1, ?_⟩
    intro hmem
    simp only [live_pids, List.mem_map] at hmem
    obtain ⟨e, he, hpid⟩ := hmem
    obtain ⟨j, hj, hje⟩ := List.getElem_of_mem he
    have hj' : j < s.snaps_count.toNat := by rw [live_length h] at hj; exact hj
    have : s.snaps[j]? = some e := by
      rw [← live_getElem? j hj', List.getElem?_eq_getElem hj, hje]
    exact h2 j (Nat.zero_le _) (by omega) e this hpid
  · exact Or.inr ⟨n, h1, by omega, h4, fun j hj => h5 j (Nat.zero_le _) hj⟩

theorem set_same {α : Type} (l : List α) (i : Nat) (e : α) (h : l[i]? = some e) :
    l.set i e = l := by
  apply List.ext_getElem?
  intro j
  by_cases hj : i = j
  · subst hj
    obtain ⟨hlt, _⟩ := List.getElem?_eq_some_iff.mp h
    simp [h, hlt]
  · simp [List.getElem?_set_ne hj]

/-! ### Closed forms of the three mutating paths -/

/-- A capture that passes every check writes `entry_of pid t` at index
`snaps_count`, increments the counter and takes one reference. -/
theorem do_snapshot_ok {procs : Int → pid_lookup} {s : Registry} {pid : Int}
    {t : task_struct} (h : InBounds s) (hc : s.snaps_count < (MAX_SNAPS : Int))
    (hp : procs pid = .task t) (hk : t.flags &&& PF_KTHREAD = 0) (hm : t.mm ≠ none) :
    do_snapshot procs s pid = some (0, captured s pid t) := by
  unfold captured
  obtain ⟨snaps, cnt, refs⟩ := s
  obtain ⟨hlen, h0, _⟩ := h
  simp only at hlen h0 hc
  lift cnt to ℕ using h0
  have hlt : cnt < snaps.length := by rw [hlen]; exact_mod_cast hc
  have hnot : ¬ ((cnt : Int) ≥ (MAX_SNAPS : Int)) := by omega
  simp [do_snapshot, hnot, hp, hk, hm, get_task_struct, store_nat, hlt, rd_nat, entry_of]

/-- Rebinding the live row `i` overwrites it with `entry_of newpid t`, takes a
reference on the new task and then drops the one held by the old row. -/
theorem rebind_at_ok {s : Registry} {i : Nat} {e : snap_entry} (newpid : Int)
    (t : task_struct) (he : s.snaps[i]? = some e) :
    rebind_at s (i : Int) newpid t = some (0, rebound s i newpid t e) := by
  unfold rebound
  obtain ⟨snaps, cnt, refs⟩ := s
  simp only at he
  obtain ⟨hlt, hget⟩ := List.getElem?_eq_some_iff.mp he
  cases hta : e.task <;>
    simp [rebind_at, get_task_struct, put_task_struct, store_nat, hlt, rd_nat, entry_of,
      he, hta, refs_after_drop]

/-- Releasing the live row `i` (holding `e`) when `last` is the last live
row: the reference of `e` is dropped, the counter decremented, and `last`
copied into `i` unless `i` is the last live index. -/
theorem release_at_ok {s : Registry} {i : Nat} {e last : snap_entry}
    (hi : i < s.snaps_count.toNat) (he : s.snaps[i]? = some e)
    (hlast : s.snaps[s.snaps_count.toNat - 1]? = some last) :
    release_at s (i : Int) = some (0, released s i e last) := by
  unfold released
  obtain ⟨snaps, cnt, refs⟩ := s
  simp only at he hi hlast ⊢
  have h0 : 0 ≤ cnt := by omega
  lift cnt to ℕ using h0
  simp only [Int.toNat_ofNat] at hi hlast ⊢
  obtain ⟨hlt, hget⟩ := List.getElem?_eq_some_iff.mp he
  obtain ⟨hlt', hget'⟩ := List.getElem?_eq_some_iff.mp hlast
  have hcast : ((cnt : Int) - 1) = ((cnt - 1 : Nat) : Int) := by omega
  by_cases hlast_idx : i < cnt - 1
  · have hcmp : (i : Int) < (cnt : Int) - 1 := by omega
    have hne : i ≠ cnt - 1 := by omega
    cases hta : e.task <;>
      simp [release_at, put_task_struct, store_nat, hlt, rd_nat, he, hta, refs_after_drop,
        hcmp, hlast_idx, hcast, hlast, hne, List.getElem?_set_ne]
  · have hcmp : ¬ ((i : Int) < (cnt : Int) - 1) := by omega
    cases hta : e.task with
    | none =>
      have hee : ({ e with task := none } : snap_entry) = e := by
        cases e; simp_all
      have hset : snaps.set i e = snaps := set_same _ _ _ he
      simp [release_at, rd_nat, he, hta, refs_after_drop, hcmp, hlast_idx, hee, hset]
    | some t =>
      simp [release_at, put_task_struct, store_nat, hlt, rd_nat, he, hta, refs_after_drop,
        hcmp, hlast_idx, hget]

/-! ### The live rows after each mutating path -/

theorem set_perm_cons {α : Type} (l : List α) (i : Nat) (x e : α) (h : l[i]? = some e) :
    List.Perm (e :: l.set i x) (x :: l) := by
  obtain ⟨hlt, hget⟩ := List.getElem?_eq_some_iff.mp h
  have h1 : l.set i x = l.take i ++ x :: l.drop (i + 1) :=
    List.set_eq_take_cons_drop x hlt
  have h2 : l = l.take i ++ e :: l.drop (i + 1) := by
    conv_lhs => rw [← List.take_append_drop i l]
    rw [List.drop_eq_getElem_cons hlt, hget]
  rw [h1]
  conv_rhs => rw [h2]
  have p1 : List.Perm (l.take i ++ x :: l.drop (i + 1)) (x :: (l.take i ++ l.drop (i + 1))) :=
    List.perm_middle
  have p2 : List.Perm (l.take i ++ e :: l.drop (i + 1)) (e :: (l.take i ++ l.drop (i + 1))) :=
    List.perm_middle
  exact ((p1.cons e).trans (List.Perm.swap x e _)).trans (p2.cons x).symm

theorem live_captured {s : Registry} (h : InBounds s)
    (hc : s.snaps_count < (MAX_SNAPS : Int)) (pid : Int) (t : task_struct) :
    live (captured s pid t) = live s ++ [entry_of pid t] := by
  obtain ⟨snaps, cnt, refs⟩ := s
  obtain ⟨hlen, h0, _⟩ := h
  simp only at hlen h0 hc
  lift cnt to ℕ using h0
  have hlt : cnt < snaps.length := by rw [hlen]; exact_mod_cast hc
  have hcast : ((cnt : Int) + 1).toNat = cnt + 1 := by omega
  simp only [live, captured, hcast, Int.toNat_ofNat]
  rw [List.take_succ, List.getElem?_set_self hlt, List.set_take,
    List.set_eq_of_length_le (by simp)]
  rfl

theorem live_rebound (s : Registry) (i : Nat) (newpid : Int) (t : task_struct)
    (e : snap_entry) :
    live (rebound s i newpid t e) = (live s).set i (entry_of newpid t) := by
  simp only [live, rebound]
  exact List.set_take

theorem live_released_perm {s : Registry} {i : Nat} {e last : snap_entry}
    (hi : i < s.snaps_count.toNat) (he : s.snaps[i]? = some e)
    (hlast : s.snaps[s.snaps_count.toNat - 1]? = some last) :
    List.Perm (live s) (e :: live (released s i e last)) := by
  obtain ⟨snaps, cnt, refs⟩ := s
  simp only at he hi hlast
  have h0 : 0 ≤ cnt := by omega
  lift cnt to ℕ using h0
  simp only [Int.toNat_ofNat] at hi hlast
  have hcast : ((cnt : Int) - 1).toNat = cnt - 1 := by omega
  obtain ⟨hlt', _⟩ := List.getElem?_eq_some_iff.mp hlast
  simp only [live, released, hcast, Int.toNat_ofNat]
  have hsplit : snaps.take cnt = snaps.take (cnt - 1) ++ [last] := by
    have : cnt = (cnt - 1) + 1 := by omega
    conv_lhs => rw [this, List.take_succ, hlast]
    rfl
  by_cases hlast_idx : i < cnt - 1
  · simp only [hlast_idx, if_true]
    rw [List.set_take, hsplit]
    have hd : (snaps.take (cnt - 1))[i]? = some e := by
      rw [List.getElem?_take_of_lt hlast_idx, he]
    exact (List.perm_append_singleton last _).trans (set_perm_cons _ i last e hd).symm
  · have hi' : i = cnt - 1 := by omega
    simp only [hlast_idx, if_false]
    rw [List.set_take, List.set_eq_of_length_le (by simp; omega), hsplit]
    have : last = e := by
      rw [hi'] at he
      rw [he] at hlast
      exact (Option.some.inj hlast).symm
    rw [this]
    exact List.perm_append_singleton e _

/-! ### Case analysis of the two operations -/

theorem not_eligible_no_pid : ¬ eligible .no_pid := by
  rintro ⟨t, ht, _⟩
  cases ht

theorem not_eligible_no_task : ¬ eligible .no_task := by
  rintro ⟨t, ht, _⟩
  cases ht

theorem eligible_task (t : task_struct) :
    eligible (.task t) ↔ (t.flags &&& PF_KTHREAD = 0 ∧ t.mm ≠ none) := by
  constructor
  · rintro ⟨t', ht, h⟩
    cases ht
    exact h
  · intro h
    exact ⟨t, rfl, h⟩

/-- On a state within bounds `do_snapshot` has exactly three outcomes: table
full, candidate rejected, or the capture committed. -/
theorem do_snapshot_cases (procs : Int → pid_lookup) {s : Registry} (h : InBounds s)
    (pid : Int) :
    (s.snaps_count = (MAX_SNAPS : Int) ∧ do_snapshot procs s pid = some (-ENOMEM, s)) ∨
    (s.snaps_count < (MAX_SNAPS : Int) ∧ ¬ eligible (procs pid) ∧
      do_snapshot procs s pid = some (-EINVAL, s)) ∨
    (s.snaps_count < (MAX_SNAPS : Int) ∧ ∃ t, procs pid = .task t ∧
      t.flags &&& PF_KTHREAD = 0 ∧ t.mm ≠ none ∧
      do_snapshot procs s pid = some (0, captured s pid t)) := by
  by_cases hfull : s.snaps_count ≥ (MAX_SNAPS : Int)
  · left
    exact ⟨le_antisymm h.2.2 hfull, by simp [do_snapshot, hfull]⟩
  · right
    have hc : s.snaps_count < (MAX_SNAPS : Int) := by omega
    cases hp : procs pid with
    | no_pid => exact Or.inl ⟨hc, not_eligible_no_pid, by simp [do_snapshot, hfull, hp]⟩
    | no_task => exact Or.inl ⟨hc, not_eligible_no_task, by simp [do_snapshot, hfull, hp]⟩
    | task t =>
      by_cases hk : t.flags &&& PF_KTHREAD = 0
      · by_cases hm : t.mm = none
        · refine Or.inl ⟨hc, ?_, by simp [do_snapshot, hfull, hp, hk, hm]⟩
          rw [eligible_task]
          exact fun h' => h'.2 hm
        · exact Or.inr ⟨hc, t, rfl, hk, hm, do_snapshot_ok h hc hp hk hm⟩
      · refine Or.inl ⟨hc, ?_, by simp [do_snapshot, hfull, hp, hk]⟩
        rw [eligible_task]
        exact fun h' => hk h'.1

/-- On a state within bounds `do_restore_rebind` has exactly four outcomes:
slot missing, released, candidate rejected, or rebound. -/
theorem do_restore_rebind_cases (procs : Int → pid_lookup) {s : Registry} (h : InBounds s)
    (oldpid newpid : Int) :
    (oldpid ∉ live_pids s ∧ find_snap s oldpid = some (-1) ∧
      do_restore_rebind procs s oldpid newpid = some (-EINVAL, s)) ∨
    ∃ (i : Nat) (e : snap_entry),
      find_snap s oldpid = some (i : Int) ∧ i < s.snaps_count.toNat ∧
      s.snaps[i]? = some e ∧ e.pid = oldpid ∧
      (∀ j, j < i → ∀ e', s.snaps[j]? = some e' → e'.pid ≠ oldpid) ∧
      ((newpid = 0 ∧ ∃ last, s.snaps[s.snaps_count.toNat - 1]? = some last ∧
          do_restore_rebind procs s oldpid newpid = some (0, released s i e last)) ∨
       (newpid ≠ 0 ∧ ¬ eligible (procs newpid) ∧
          do_restore_rebind procs s oldpid newpid = some (-EINVAL, s)) ∨
       (newpid ≠ 0 ∧ ∃ t, procs newpid = .task t ∧
          t.flags &&& PF_KTHREAD = 0 ∧ t.mm ≠ none ∧
          do_restore_rebind procs s oldpid newpid = some (0, rebound s i newpid t e))) := by
  obtain ⟨r, hr, hspec⟩ := find_snap_spec h oldpid
  rcases hspec with ⟨h1, h2⟩ | ⟨i, h1, h2, ⟨e, he, hpid⟩, h4⟩
  · left
    subst h1
    exact ⟨h2, hr, by simp [do_restore_rebind, hr]⟩
  · right
    subst h1
    refine ⟨i, e, hr, h2, he, hpid, h4, ?_⟩
    have hnn : ¬ ((i : Int) < 0) := by omega
    by_cases hn : newpid = 0
    · left
      have hlastlt : s.snaps_count.toNat - 1 < s.snaps.length := by
        have := h.toNat_le
        omega
      refine ⟨hn, s.snaps[s.snaps_count.toNat - 1], List.getElem?_eq_getElem hlastlt, ?_⟩
      simp only [do_restore_rebind, hr, Option.some_bind, hnn, if_false, hn, if_true]
      exact release_at_ok h2 he (List.getElem?_eq_getElem hlastlt)
    · right
      cases hp : procs newpid with
      | no_pid =>
        exact Or.inl ⟨hn, not_eligible_no_pid, by simp [do_restore_rebind, hr, hn, hp]⟩
      | no_task =>
        exact Or.inl ⟨hn, not_eligible_no_task, by simp [do_restore_rebind, hr, hn, hp]⟩
      | task t =>
        have hE : (0 : Int) < EINVAL := by decide
        by_cases hk : t.flags &&& PF_KTHREAD = 0
        · by_cases hm : t.mm = none
          · refine Or.inl ⟨hn, ?_, ?_⟩
            · rw [eligible_task]
              exact fun h' => h'.2 hm
            · simp [do_restore_rebind, hr, hn, hp, validate_user_task, hk, hm, hE]
          · refine Or.inr ⟨hn, t, rfl, hk, hm, ?_⟩
            simp only [do_restore_rebind, hr, Option.some_bind, hnn, if_false, hn, hp,
              validate_user_task, hk, hm, ne_eq, not_true_eq_false, lt_self_iff_false]
            exact rebind_at_ok newpid t he
        · refine Or.inl ⟨hn, ?_, ?_⟩
          · rw [eligible_task]
            exact fun h' => hk h'.1
          · simp [do_restore_rebind, hr, hn, hp, validate_user_task, hk, hE]

/-! ### Preservation of the array bounds -/

theorem inBounds_init : InBounds init := by
  refine ⟨?_, ?_, ?_⟩ <;> simp [init, MAX_SNAPS]

theorem inBounds_captured {s : Registry} (h : InBounds s)
    (hc : s.snaps_count < (MAX_SNAPS : Int)) (pid : Int) (t : task_struct) :
    InBounds (captured s pid t) := by
  obtain ⟨h1, h2, h3⟩ := h
  refine ⟨?_, ?_, ?_⟩
  · simpa [captured] using h1
  · simp only [captured]; omega
  · simp only [captured]; omega

theorem inBounds_rebound {s : Registry} (h : InBounds s) (i : Nat) (newpid : Int)
    (t : task_struct) (e : snap_entry) : InBounds (rebound s i newpid t e) := by
  obtain ⟨h1, h2, h3⟩ := h
  exact ⟨by simpa [rebound] using h1, h2, h3⟩

theorem inBounds_released {s : Registry} (h : InBounds s) {i : Nat}
    (hi : i < s.snaps_count.toNat) (e last : snap_entry) :
    InBounds (released s i e last) := by
  obtain ⟨h1, h2, h3⟩ := h
  refine ⟨?_, ?_, ?_⟩
  · simp only [released]
    split <;> simpa using h1
  · simp only [released]; omega
  · simp only [released]; omega

/-- One `do_snapshot` call keeps the state within the array bounds. -/
theorem inBounds_do_snapshot {procs : Int → pid_lookup} {s s' : Registry} {pid r : Int}
    (h : InBounds s) (hstep : do_snapshot procs s pid = some (r, s')) : InBounds s' := by
  rcases do_snapshot_cases procs h pid with ⟨_, heq⟩ | ⟨_, _, heq⟩ | ⟨hc, t, _, _, _, heq⟩
  · rw [heq] at hstep; cases hstep; exact h
  · rw [heq] at hstep; cases hstep; exact h
  · rw [heq] at hstep; cases hstep; exact inBounds_captured h hc pid t

/-- One `do_restore_rebind` call keeps the state within the array bounds. -/
theorem inBounds_do_restore_rebind {procs : Int → pid_lookup} {s s' : Registry}
    {oldpid newpid r : Int} (h : InBounds s)
    (hstep : do_restore_rebind procs s oldpid newpid = some (r, s')) : InBounds s' := by
  rcases do_restore_rebind_cases procs h oldpid newpid with
    ⟨_, _, heq⟩ | ⟨i, e, _, hi, _, _, _, hcase⟩
  · rw [heq] at hstep; cases hstep; exact h
  · rcases hcase with ⟨_, last, _, heq⟩ | ⟨_, _, heq⟩ | ⟨_, t, _, _, _, heq⟩
    · rw [heq] at hstep; cases hstep; exact inBounds_released h hi e last
    · rw [heq] at hstep; cases hstep; exact h
    · rw [heq] at hstep; cases hstep; exact inBounds_rebound h i newpid t e

theorem reachable_inBounds {s : Registry} (h : Reachable s) : InBounds s := by
  induction h with
  | init => exact inBounds_init
  | snapshot procs pid _ hstep ih => exact inBounds_do_snapshot ih hstep
  | restore procs oldpid newpid _ hstep ih => exact inBounds_do_restore_rebind ih hstep

/-- On a state within bounds `do_snapshot` is defined (touches no memory
outside the table). -/
theorem do_snapshot_defined (procs : Int → pid_lookup) {s : Registry} (h : InBounds s)
    (pid : Int) : ∃ r s', do_snapshot procs s pid = some (r, s') := by
  rcases do_snapshot_cases procs h pid with ⟨_, heq⟩ | ⟨_, _, heq⟩ | ⟨_, t, _, _, _, heq⟩
  · exact ⟨_, _, heq⟩
  · exact ⟨_, _, heq⟩
  · exact ⟨_, _, heq⟩

/-- On a state within bounds `do_restore_rebind` is defined. -/
theorem do_restore_rebind_defined (procs : Int → pid_lookup) {s : Registry}
    (h : InBounds s) (oldpid newpid : Int) :
    ∃ r s', do_restore_rebind procs s oldpid newpid = some (r, s') := by
  rcases do_restore_rebind_cases procs h oldpid newpid with
    ⟨_, _, heq⟩ | ⟨i, e, _, _, _, _, _, hcase⟩
  · exact ⟨_, _, heq⟩
  · rcases hcase with ⟨_, last, _, heq⟩ | ⟨_, _, heq⟩ | ⟨_, t, _, _, _, heq⟩
    · exact ⟨_, _, heq⟩
    · exact ⟨_, _, heq⟩
    · exact ⟨_, _, heq⟩

/-! ### Slot ids after each mutating path -/

theorem live_pids_captured {s : Registry} (h : InBounds s)
    (hc : s.snaps_count < (MAX_SNAPS : Int)) (pid : Int) (t : task_struct) :
    live_pids (captured s pid t) = live_pids s ++ [pid] := by
  simp [live_pids, live_captured h hc, entry_of]

theorem holders_captured {s : Registry} (h : InBounds s)
    (hc : s.snaps_count < (MAX_SNAPS : Int)) (pid : Int) (t : task_struct) (x : Nat) :
    holders (captured s pid t) x = holders s x + (if x = t.addr then 1 else 0) := by
  simp only [holders, live_captured h hc, List.countP_append, entry_of]
  by_cases hx : x = t.addr
  · simp [List.countP_cons, hx]
  · have : ¬ t.addr = x := fun h' => hx h'.symm
    simp [List.countP_cons, hx, this]

theorem holders_released {s : Registry} {i : Nat} {e last : snap_entry}
    (hi : i < s.snaps_count.toNat) (he : s.snaps[i]? = some e)
    (hlast : s.snaps[s.snaps_count.toNat - 1]? = some last) (x : Nat) :
    holders s x = holders (released s i e last) x + (if e.task = some x then 1 else 0) := by
  simp only [holders]
  rw [(live_released_perm hi he hlast).countP_eq, List.countP_cons]
  simp

theorem holders_rebound {s : Registry} {i : Nat} {e : snap_entry}
    (hi : i < s.snaps_count.toNat) (he : s.snaps[i]? = some e) (newpid : Int)
    (t : task_struct) (x : Nat) :
    holders (rebound s i newpid t e) x + (if e.task = some x then 1 else 0) =
      holders s x + (if x = t.addr then 1 else 0) := by
  have hget : (live s)[i]? = some e := by rw [live_getElem? i hi, he]
  have hp := (set_perm_cons (live s) i (entry_of newpid t) e hget).countP_eq
    (fun e => decide (e.task = some x))
  simp only [holders, live_rebound]
  rw [List.countP_cons, List.countP_cons] at hp
  by_cases hx : x = t.addr
  · simp only [entry_of, hx, if_true, decide_True] at hp ⊢
    simpa using hp
  · have : ¬ t.addr = x := fun h' => hx h'.symm
    simp only [entry_of, hx, if_false, Option.some.injEq, this, decide_False] at hp ⊢
    simpa using hp

theorem mem_live_of_getElem? {s : Registry} {i : Nat} {e : snap_entry}
    (hi : i < s.snaps_count.toNat) (he : s.snaps[i]? = some e) : e ∈ live s := by
  have hget : (live s)[i]? = some e := by rw [live_getElem? i hi, he]
  obtain ⟨hlt, heq⟩ := List.getElem?_eq_some_iff.mp hget
  rw [← heq]
  exact List.getElem_mem hlt

theorem refsAccounted_init : RefsAccounted init := by
  refine ⟨?_, ?_⟩
  · intro e he
    simp [live, init] at he
  · intro t
    simp [holders, live, init]

theorem refsAccounted_captured {s : Registry} (h : InBounds s)
    (hc : s.snaps_count < (MAX_SNAPS : Int)) (hr : RefsAccounted s) (pid : Int)
    (t : task_struct) : RefsAccounted (captured s pid t) := by
  refine ⟨?_, ?_⟩
  · intro e he
    rw [live_captured h hc] at he
    rcases List.mem_append.mp he with h1 | h1
    · exact hr.1 e h1
    · simp only [List.mem_singleton] at h1
      subst h1
      simp [entry_of]
  · intro x
    rw [holders_captured h hc]
    have := hr.2 x
    simp only [captured]
    split <;> simp [this]

theorem refsAccounted_released {s : Registry} {i : Nat} {e last : snap_entry}
    (hr : RefsAccounted s) (hi : i < s.snaps_count.toNat) (he : s.snaps[i]? = some e)
    (hlast : s.snaps[s.snaps_count.toNat - 1]? = some last) :
    RefsAccounted (released s i e last) := by
  have hperm := live_released_perm hi he hlast
  refine ⟨?_, ?_⟩
  · intro e' he'
    exact hr.1 e' (hperm.symm.subset (List.mem_cons_of_mem _ he'))
  · intro x
    have h1 := holders_released hi he hlast x
    have h2 := hr.2 x
    have hne := hr.1 e (mem_live_of_getElem? hi he)
    cases hta : e.task with
    | none => exact absurd hta hne
    | some t0 =>
      have hrefs : (released s i e last).refs x = refs_after_drop s.refs e x := rfl
      rw [hrefs]
      simp only [refs_after_drop, hta]
      rw [hta] at h1
      simp only [Option.some.injEq] at h1
      split_ifs at h1 ⊢ <;> omega

theorem refsAccounted_rebound {s : Registry} {i : Nat} {e : snap_entry}
    (hr : RefsAccounted s) (hi : i < s.snaps_count.toNat) (he : s.snaps[i]? = some e)
    (newpid : Int) (t : task_struct) : RefsAccounted (rebound s i newpid t e) := by
  refine ⟨?_, ?_⟩
  · intro e' he'
    rw [live_rebound] at he'
    rcases List.mem_or_eq_of_mem_set he' with h1 | h1
    · exact hr.1 e' h1
    · subst h1
      simp [entry_of]
  · intro x
    have h1 := holders_rebound hi he newpid t x
    have h2 := hr.2 x
    have hne := hr.1 e (mem_live_of_getElem? hi he)
    cases hta : e.task with
    | none => exact absurd hta hne
    | some t0 =>
      have hrefs : (rebound s i newpid t e).refs x =
          refs_after_drop (fun x => if x = t.addr then s.refs x + 1 else s.refs x) e x := rfl
      rw [hrefs]
      simp only [refs_after_drop, hta]
      rw [hta] at h1
      simp only [Option.some.injEq] at h1
      split_ifs at h1 ⊢ <;> omega

/-! ### Reachability of the example states -/

theorem reachable_captured_once : Reachable captured_once :=
  Reachable.snapshot procs1 100 Reachable.init
    (rfl : do_snapshot procs1 init 100 = some (0, captured_once))

theorem reachable_captured_twice : Reachable captured_twice :=
  Reachable.snapshot procs1 100 reachable_captured_once
    (rfl : do_snapshot procs1 captured_once 100 = some (0, captured_twice))

theorem reachable_captured_stale : Reachable captured_stale :=
  Reachable.snapshot procs1 100
    (Reachable.snapshot procs0 250 Reachable.init
      (rfl : do_snapshot procs0 init 250 = some (0, after (do_snapshot procs0 init 250) init)))
    (rfl : do_snapshot procs1 (after (do_snapshot procs0 init 250) init) 100 =
      some (0, captured_stale))

/-- C2: in every reachable state `0 ≤ snaps_count ≤ 64` and the table has its
64 rows, and from such a state `find_snap`, `do_snapshot` and
`do_restore_rebind` are defined for all arguments and lookup outcomes, that
is, none of their table reads or writes uses an index outside the array. -/
theorem C2_snaps_count_bounded (s : Registry) (h : Reachable s) :
    0 ≤ s.snaps_count ∧ s.snaps_count ≤ 64 ∧ s.snaps.length = 64 ∧
      (∀ pid, ∃ r, find_snap s pid = some r) ∧
      (∀ procs pid, ∃ r s', do_snapshot procs s pid = some (r, s')) ∧
      (∀ procs oldpid newpid, ∃ r s',
        do_restore_rebind procs s oldpid newpid = some (r, s')) := by
  have hb := reachable_inBounds h
  refine ⟨hb.2.1, ?_, ?_, ?_, ?_, ?_⟩
  · simpa [MAX_SNAPS] using hb.2.2
  · simpa [MAX_SNAPS] using hb.1
  · intro pid
    obtain ⟨r, hr, _⟩ := find_snap_spec hb pid
    exact ⟨r, hr⟩
  · intro procs pid
    exact do_snapshot_defined procs hb pid
  · intro procs oldpid newpid
    exact do_restore_rebind_defined procs hb oldpid newpid

/-- Witness for C2 at the state holding two captures. -/
theorem C2_snaps_count_bounded_witness :
    Reachable captured_twice ∧ 0 ≤ captured_twice.snaps_count ∧
      captured_twice.snaps_count ≤ 64 :=
  ⟨reachable_captured_twice,
    (C2_snaps_count_bounded captured_twice reachable_captured_twice).1,
    (C2_snaps_count_bounded captured_twice reachable_captured_twice).2.1⟩

/-! ### C3: capture at capacity -/

/-- C3: when `snaps_count == MAX_SNAPS`, `do_snapshot` returns `-ENOMEM`, a
negative status, whatever the pid and the lookup outcome, and the whole state
(table, counter and reference counts) is returned unchanged. -/
theorem C3_table_full (procs : Int → pid_lookup) (s : Registry) (pid : Int)
    (h : s.snaps_count = (MAX_SNAPS : Int)) :
    do_snapshot procs s pid = some (-ENOMEM, s) ∧ -ENOMEM < 0 := by
  refine ⟨?_, by decide⟩
  simp [do_snapshot, h]

/-- Witness for C3 at a table holding 64 entries. -/
theorem C3_table_full_witness :
    full_table.snaps_count = (MAX_SNAPS : Int) ∧
      do_snapshot procs1 full_table 100 = some (-ENOMEM, full_table) :=
  ⟨by decide, (C3_table_full procs1 full_table 100 (by decide)).1⟩

/-! ### C4: the entry created by a successful capture -/

theorem mem_live_pids_of_getElem? {s : Registry} {i : Nat} {e : snap_entry}
    (hi : i < s.snaps_count.toNat) (he : s.snaps[i]? = some e) : e.pid ∈ live_pids s :=
  List.mem_map_of_mem (fun e => e.pid) (mem_live_of_getElem? hi he)

theorem neg_EINVAL_ne_zero : -EINVAL ≠ 0 := by decide

theorem neg_ENOMEM_ne_zero : -ENOMEM ≠ 0 := by decide

/-- A `do_snapshot` call that returns `0` committed the capture. -/
theorem do_snapshot_success {procs : Int → pid_lookup} {s s' : Registry} {pid : Int}
    (h : InBounds s) (hstep : do_snapshot procs s pid = some (0, s')) :
    s.snaps_count < (MAX_SNAPS : Int) ∧
      ∃ t, procs pid = .task t ∧ t.flags &&& PF_KTHREAD = 0 ∧ t.mm ≠ none ∧
        s' = captured s pid t := by
  rcases do_snapshot_cases procs h pid with ⟨_, heq⟩ | ⟨_, _, heq⟩ | ⟨hc, t, hp, hk, hm, heq⟩
  · rw [heq] at hstep
    exact absurd (congrArg Prod.fst (Option.some.inj hstep)) neg_ENOMEM_ne_zero
  · rw [heq] at hstep
    exact absurd (congrArg Prod.fst (Option.some.inj hstep)) neg_EINVAL_ne_zero
  · rw [heq] at hstep
    exact ⟨hc, t, hp, hk, hm, (congrArg Prod.snd (Option.some.inj hstep)).symm⟩

/-- C4 (as stated, refuted): from the reachable state that already holds pid
100, `do_snapshot(100)` returns `0` again and afterwards two live entries have
slot id 100. -/
theorem C4_second_capture_duplicates :
    Reachable captured_once ∧
      do_snapshot procs1 captured_once 100 = some (0, captured_twice) ∧
      (live_pids captured_twice).count 100 = 2 :=
  ⟨reachable_captured_once, rfl, by decide⟩

/-- C4 (amended): from every reachable state, if `do_snapshot(pid)` returns
`0` then the number of live entries with slot id `pid` has grown by one; it is
exactly one when no live entry had that slot id before the call. -/
theorem C4_capture_adds_one_entry (procs : Int → pid_lookup) (s s' : Registry) (pid : Int)
    (h : Reachable s) (hstep : do_snapshot procs s pid = some (0, s')) :
    (live_pids s').count pid = (live_pids s).count pid + 1 ∧
      (pid ∉ live_pids s → (live_pids s').count pid = 1) := by
  have hb := reachable_inBounds h
  obtain ⟨hc, t, _, _, _, hs'⟩ := do_snapshot_success hb hstep
  have hcount : (live_pids s').count pid = (live_pids s).count pid + 1 := by
    rw [hs', live_pids_captured hb hc]
    simp
  refine ⟨hcount, ?_⟩
  intro hfresh
  rw [hcount, List.count_eq_zero_of_not_mem hfresh]

/-- Witness for C4 (amended): the first capture of pid 100. -/
theorem C4_capture_adds_one_entry_witness :
    Reachable init ∧ do_snapshot procs1 init 100 = some (0, captured_once) ∧
      (live_pids captured_once).count 100 = 1 :=
  ⟨Reachable.init, rfl,
    (C4_capture_adds_one_entry procs1 init captured_once 100 Reachable.init rfl).2
      (by decide)⟩

/-! ### C5: lookups after a successful rebind -/

/-- A `do_restore_rebind` call with `newpid != 0` that returns `0` rebound the
first live row carrying `oldpid`. -/
theorem do_restore_rebind_success {procs : Int → pid_lookup} {s s' : Registry}
    {oldpid newpid : Int} (h : InBounds s) (hn : newpid ≠ 0)
    (hstep : do_restore_rebind procs s oldpid newpid = some (0, s')) :
    ∃ (i : Nat) (e : snap_entry) (t : task_struct),
      find_snap s oldpid = some (i : Int) ∧ i < s.snaps_count.toNat ∧
      s.snaps[i]? = some e ∧ e.pid = oldpid ∧ procs newpid = .task t ∧
      t.flags &&& PF_KTHREAD = 0 ∧ t.mm ≠ none ∧ s' = rebound s i newpid t e := by
  rcases do_restore_rebind_cases procs h oldpid newpid with
    ⟨_, _, heq⟩ | ⟨i, e, hf, hi, he, hpid, _, hcase⟩
  · rw [heq] at hstep
    exact absurd (congrArg Prod.fst (Option.some.inj hstep)) neg_EINVAL_ne_zero
  · rcases hcase with ⟨h0, _⟩ | ⟨_, _, heq⟩ | ⟨_, t, hp, hk, hm, heq⟩
    · exact absurd h0 hn
    · rw [heq] at hstep
      exact absurd (congrArg Prod.fst (Option.some.inj hstep)) neg_EINVAL_ne_zero
    · rw [heq] at hstep
      exact ⟨i, e, t, hf, hi, he, hpid, hp, hk, hm,
        (congrArg Prod.snd (Option.some.inj hstep)).symm⟩

/-- C5 (as stated, refuted) on three reachable states.  Rebinding pid 100 to
itself succeeds and the lookup by the old pid still finds row 0; with two rows
for pid 100, rebinding 100 to 250 succeeds and the lookup by 100 finds row 1;
with a row for pid 250 captured when 250 was another task (address 11),
rebinding 100 to 250 (now the task at address 9) succeeds and the lookup by
250 finds row 0, which still holds the task at address 11. -/
theorem C5_rebind_lookup_fails :
    (Reachable captured_once ∧
      status (do_restore_rebind procs1 captured_once 100 100) = some 0 ∧
      find_snap (after (do_restore_rebind procs1 captured_once 100 100) captured_once) 100
        = some 0) ∧
    (Reachable captured_twice ∧
      status (do_restore_rebind procs1 captured_twice 100 250) = some 0 ∧
      find_snap (after (do_restore_rebind procs1 captured_twice 100 250) captured_twice) 100
        = some 1) ∧
    (Reachable captured_stale ∧
      status (do_restore_rebind procs1 captured_stale 100 250) = some 0 ∧
      procs1 250 = .task taskB ∧ taskB.addr = 9 ∧
      find_snap (after (do_restore_rebind procs1 captured_stale 100 250) captured_stale) 250
        = some 0 ∧
      (rd (after (do_restore_rebind procs1 captured_stale 100 250) captured_stale).snaps 0).map
        (fun e => e.task) = some (some 11)) :=
  ⟨⟨reachable_captured_once, by decide, by decide⟩,
   ⟨reachable_captured_twice, by decide, by decide⟩,
   ⟨reachable_captured_stale, by decide, by decide, by decide, by decide, by decide⟩⟩

/-- A lookup that returns a non-negative index returns the first live row
carrying the pid. -/
theorem find_snap_some {s : Registry} (hb : InBounds s) {pid : Int} {j : Nat}
    (h : find_snap s pid = some (j : Int)) :
    j < s.snaps_count.toNat ∧ (∃ e, s.snaps[j]? = some e ∧ e.pid = pid) ∧
      ∀ m, m < j → ∀ e, s.snaps[m]? = some e → e.pid ≠ pid := by
  obtain ⟨r, hr, hspec⟩ := find_snap_spec hb pid
  rw [h] at hr
  cases hr
  rcases hspec with ⟨h1, _⟩ | ⟨n, h1, h2, h3, h4⟩
  · omega
  · have hjn : j = n := by exact_mod_cast h1
    subst hjn
    exact ⟨h2, h3, h4⟩

/-- A lookup that returns `-1` found no live row carrying the pid. -/
theorem find_snap_neg_one {s : Registry} (hb : InBounds s) {pid : Int}
    (h : find_snap s pid = some (-1)) : pid ∉ live_pids s := by
  obtain ⟨r, hr, hspec⟩ := find_snap_spec hb pid
  rw [h] at hr
  cases hr
  rcases hspec with ⟨_, h2⟩ | ⟨n, h1, _⟩
  · exact h2
  · omega

/-- The lookup returns the first live row carrying the pid. -/
theorem find_snap_eq_of_first {s : Registry} (hb : InBounds s) {pid : Int} {j : Nat}
    {e : snap_entry} (hj : j < s.snaps_count.toNat) (he : s.snaps[j]? = some e)
    (hp : e.pid = pid) (hfirst : ∀ m, m < j → ∀ e', s.snaps[m]? = some e' → e'.pid ≠ pid) :
    find_snap s pid = some (j : Int) := by
  obtain ⟨r, hr, hspec⟩ := find_snap_spec hb pid
  rcases hspec with ⟨_, h2⟩ | ⟨n, h1, h2, ⟨e', he', hp'⟩, h4⟩
  · have := mem_live_pids_of_getElem? hj he
    rw [hp] at this
    exact absurd this h2
  · rcases Nat.lt_trichotomy n j with hlt | heq | hgt
    · exact absurd hp' (hfirst n hlt e' he')
    · rw [hr, h1, heq]
    · exact absurd hp (h4 j hgt e he)

/-- The lookup returns `-1` when no live row carries the pid. -/
theorem find_snap_eq_neg_one {s : Registry} (hb : InBounds s) {pid : Int}
    (hno : ∀ m e, m < s.snaps_count.toNat → s.snaps[m]? = some e → e.pid ≠ pid) :
    find_snap s pid = some (-1) := by
  obtain ⟨r, hr, hspec⟩ := find_snap_spec hb pid
  rcases hspec with ⟨h1, _⟩ | ⟨n, _, h2, ⟨e', he', hp'⟩, _⟩
  · rw [hr, h1]
  · exact absurd hp' (hno n e' h2 he')

/-- C5 (amended): from every reachable state, if `do_restore_rebind(oldpid,
newpid)` with `newpid != 0` returns `0`, it has rebound row `i`, the first live
row with pid `oldpid`, to the task `t` that `newpid` resolved to; afterwards
`find_snap(oldpid)` returns `-1` and `find_snap(newpid)` returns a live index
whose entry has `pid == newpid` and holds `t`, if and only if `newpid` differs
from `oldpid`, no live row other than `i` had pid `oldpid`, and, in case
`find_snap(newpid)` before the call returned a row before `i`, that row
already held `t`. -/
theorem C5_rebind_lookup_iff (procs : Int → pid_lookup) (s s' : Registry)
    (oldpid newpid : Int) (h : Reachable s) (hn : newpid ≠ 0)
    (hstep : do_restore_rebind procs s oldpid newpid = some (0, s')) :
    ∃ (i : Nat) (e : snap_entry) (t : task_struct),
      find_snap s oldpid = some (i : Int) ∧ rd s.snaps (i : Int) = some e ∧
      procs newpid = .task t ∧
      ((find_snap s' oldpid = some (-1) ∧
        ∃ (j : Nat) (e' : snap_entry), find_snap s' newpid = some (j : Int) ∧
          (j : Int) < s'.snaps_count ∧ rd s'.snaps (j : Int) = some e' ∧
          e'.pid = newpid ∧ e'.task = some t.addr) ↔
       (newpid ≠ oldpid ∧
        (∀ (m : Nat) (e' : snap_entry), m ≠ i → (m : Int) < s.snaps_count →
          rd s.snaps (m : Int) = some e' → e'.pid ≠ oldpid) ∧
        (∀ (j : Nat) (e' : snap_entry), find_snap s newpid = some (j : Int) → j < i →
          rd s.snaps (j : Int) = some e' → e'.task = some t.addr))) := by
  have hb := reachable_inBounds h
  obtain ⟨i, e, t, hf, hi, he, hpid, hp, _, _, hs'⟩ := do_restore_rebind_success hb hn hstep
  have hb' : InBounds s' := by rw [hs']; exact inBounds_rebound hb i newpid t e
  have hcount : s'.snaps_count = s.snaps_count := by rw [hs']; rfl
  have hsnaps : s'.snaps = s.snaps.set i (entry_of newpid t) := by rw [hs']; rfl
  obtain ⟨hlt, _⟩ := List.getElem?_eq_some_iff.mp he
  have hrow : s'.snaps[i]? = some (entry_of newpid t) := by
    rw [hsnaps, List.getElem?_set_self hlt]
  have hother : ∀ m, m ≠ i → s'.snaps[m]? = s.snaps[m]? := by
    intro m hm
    rw [hsnaps, List.getElem?_set_ne (fun h' => hm h'.symm)]
  have hi' : i < s'.snaps_count.toNat := by rw [hcount]; exact hi
  have hcnt := hb.count_eq
  refine ⟨i, e, t, hf, by rw [rd_nat, he], hp, ?_, ?_⟩
  · rintro ⟨hold, j, e', hfj, _, hrdj, _, htask⟩
    have hnotmem := find_snap_neg_one hb' hold
    have hne : newpid ≠ oldpid := by
      intro heq
      have := mem_live_pids_of_getElem? hi' hrow
      rw [show (entry_of newpid t).pid = oldpid from heq] at this
      exact hnotmem this
    refine ⟨hne, ?_, ?_⟩
    · intro m e'' hm hmc hrd hpm
      rw [rd_nat] at hrd
      have hm' : m < s'.snaps_count.toNat := by rw [hcount]; omega
      have := mem_live_pids_of_getElem? hm' (by rw [hother m hm]; exact hrd)
      rw [hpm] at this
      exact hnotmem this
    · intro j0 e0 hf0 hj0 hrd0
      rw [rd_nat] at hrd0
      obtain ⟨hj0n, ⟨e1, he1, hp1⟩, hfirst0⟩ := find_snap_some hb hf0
      rw [hrd0] at he1
      cases he1
      have hf0' : find_snap s' newpid = some (j0 : Int) := by
        apply find_snap_eq_of_first hb' (by rw [hcount]; exact hj0n)
          (by rw [hother j0 (by omega)]; exact hrd0) hp1
        intro m hm e2 he2
        rw [hother m (by omega)] at he2
        exact hfirst0 m hm e2 he2
      rw [hfj] at hf0'
      have hjj : j = j0 := by
        have := Option.some.inj hf0'
        exact_mod_cast this
      subst hjj
      rw [rd_nat, hother j (by omega), hrd0] at hrdj
      cases hrdj
      exact htask
  · rintro ⟨hne, huniq, hearlier⟩
    refine ⟨?_, ?_⟩
    · apply find_snap_eq_neg_one hb'
      intro m e'' hm hem hpm
      by_cases hmi : m = i
      · subst hmi
        rw [hrow] at hem
        cases hem
        exact hne hpm
      · rw [hother m hmi] at hem
        rw [hcount] at hm
        exact huniq m e'' hmi (by omega) (by rw [rd_nat]; exact hem) hpm
    · obtain ⟨r, hr, hspec⟩ := find_snap_spec hb' newpid
      rcases hspec with ⟨_, h2⟩ | ⟨m, h1, hm, ⟨e'', hem, hpm⟩, hfirst⟩
      · exact absurd (mem_live_pids_of_getElem? hi' hrow) h2
      · have hmi : m ≤ i := by
          by_contra hgt
          exact absurd rfl (hfirst i (by omega) _ hrow)
        refine ⟨m, e'', by rw [hr, h1], by omega, by rw [rd_nat]; exact hem, hpm, ?_⟩
        by_cases hEq : m = i
        · subst hEq
          rw [hrow] at hem
          cases hem
          rfl
        · have hlt' : m < i := by omega
          have hem' : s.snaps[m]? = some e'' := by rw [← hother m hEq]; exact hem
          have hfm : find_snap s newpid = some (m : Int) := by
            apply find_snap_eq_of_first hb (by rw [← hcount]; exact hm) hem' hpm
            intro m0 hm0 e0 he0
            rw [← hother m0 (by omega)] at he0
            exact hfirst m0 hm0 e0 he0
          exact hearlier m e'' hfm hlt' (by rw [rd_nat]; exact hem')

/-- Witness for C5 (amended): with live rows for pids 100 and 250 (the slot
ids stay duplicated afterwards), rebinding pid 100 to pid 250 leaves no row
for pid 100 and the lookup by 250 returns row 0, now holding the task at
address 9. -/
theorem C5_rebind_lookup_iff_witness :
    live_pids captured_pair = [100, 250] ∧
    find_snap (after (do_restore_rebind procs1 captured_pair 100 250) captured_pair) 100
      = some (-1) ∧
    find_snap (after (do_restore_rebind procs1 captured_pair 100 250) captured_pair) 250
      = some 0 ∧
    ∃ (i : Nat) (e : snap_entry) (t : task_struct),
      find_snap captured_pair 100 = some (i : Int) ∧
      rd captured_pair.snaps (i : Int) = some e ∧ procs1 250 = .task t ∧
      ((find_snap (after (do_restore_rebind procs1 captured_pair 100 250) captured_pair) 100
          = some (-1) ∧
        ∃ (j : Nat) (e' : snap_entry),
          find_snap (after (do_restore_rebind procs1 captured_pair 100 250) captured_pair) 250
            = some (j : Int) ∧
          (j : Int) <
            (after (do_restore_rebind procs1 captured_pair 100 250) captured_pair).snaps_count ∧
          rd (after (do_restore_rebind procs1 captured_pair 100 250) captured_pair).snaps
            (j : Int) = some e' ∧
          e'.pid = 250 ∧ e'.task = some t.addr) ↔
       ((250 : Int) ≠ 100 ∧
        (∀ (m : Nat) (e' : snap_entry), m ≠ i → (m : Int) < captured_pair.snaps_count →
          rd captured_pair.snaps (m : Int) = some e' → e'.pid ≠ 100) ∧
        (∀ (j : Nat) (e' : snap_entry), find_snap captured_pair 250 = some (j : Int) → j < i →
          rd captured_pair.snaps (j : Int) = some e' → e'.task = some t.addr))) :=
  ⟨by decide, by decide, by decide,
    C5_rebind_lookup_iff procs1 captured_pair
      (after (do_restore_rebind procs1 captured_pair 100 250) captured_pair) 100 250
      (Reachable.snapshot procs1 250 reachable_captured_once
        (rfl : do_snapshot procs1 captured_once 250 = some (0, captured_pair)))
      (by decide) rfl⟩

/-! ### C6: pure release and the missing slot -/

/-- With `newpid == 0` the process lookup is never consulted. -/
theorem do_restore_rebind_zero (procs procs' : Int → pid_lookup) (s : Registry)
    (oldpid : Int) :
    do_restore_rebind procs s oldpid 0 = do_restore_rebind procs' s oldpid 0 := by
  simp [do_restore_rebind]

theorem mem_live_pids_iff (s : Registry) (pid : Int) :
    pid ∈ live_pids s ↔ ∃ e ∈ live s, e.pid = pid := by
  simp [live_pids]

/-- C6: on every state within the array bounds, `do_restore_rebind(oldpid, 0)`
returns the same result whatever the process lookup would answer; the status
is `0` exactly when some live entry has `pid == oldpid`, and when none has it
the status is negative and the state (table, counter, reference counts) is
unchanged. -/
theorem C6_pure_release_iff_slot_exists (s : Registry) (oldpid : Int) (h : InBounds s) :
    ∃ r s', (∀ procs, do_restore_rebind procs s oldpid 0 = some (r, s')) ∧
      (r = 0 ↔ ∃ e ∈ live s, e.pid = oldpid) ∧
      ((¬ ∃ e ∈ live s, e.pid = oldpid) → r < 0 ∧ s' = s) := by
  rcases do_restore_rebind_cases (fun _ => pid_lookup.no_pid) h oldpid 0 with
    ⟨hmiss, _, heq⟩ | ⟨i, e, _, hi, he, hpid, _, hcase⟩
  · rw [mem_live_pids_iff] at hmiss
    refine ⟨-EINVAL, s, ?_, ?_, ?_⟩
    · intro procs
      rw [do_restore_rebind_zero procs (fun _ => pid_lookup.no_pid), heq]
    · exact ⟨fun h0 => absurd h0 neg_EINVAL_ne_zero, fun hex => absurd hex hmiss⟩
    · intro _
      exact ⟨by decide, rfl⟩
  · have hex : ∃ e ∈ live s, e.pid = oldpid := ⟨e, mem_live_of_getElem? hi he, hpid⟩
    rcases hcase with ⟨_, last, _, heq⟩ | ⟨hn, _⟩ | ⟨hn, _⟩
    · refine ⟨0, released s i e last, ?_, ?_, ?_⟩
      · intro procs
        rw [do_restore_rebind_zero procs (fun _ => pid_lookup.no_pid), heq]
      · exact ⟨fun _ => hex, fun _ => rfl⟩
      · intro hno
        exact absurd hex hno
    · exact absurd rfl hn
    · exact absurd rfl hn

/-- Witness for C6 at the state holding one capture of pid 100. -/
theorem C6_pure_release_iff_slot_exists_witness :
    InBounds captured_once ∧
      ∃ r s', (∀ procs, do_restore_rebind procs captured_once 100 0 = some (r, s')) ∧
        (r = 0 ↔ ∃ e ∈ live captured_once, e.pid = 100) ∧
        ((¬ ∃ e ∈ live captured_once, e.pid = 100) → r < 0 ∧ s' = captured_once) :=
  ⟨reachable_inBounds reachable_captured_once,
    C6_pure_release_iff_slot_exists captured_once 100
      (reachable_inBounds reachable_captured_once)⟩

/-! ### C7: all-or-nothing status codes -/

/-- C7: on every state within the array bounds, `do_snapshot` and
`do_restore_rebind` each return a status that is `0` or negative, and whenever
the status is non-zero the returned state (table, counter and reference
counts) equals the state before the call. -/
theorem C7_all_or_nothing (procs : Int → pid_lookup) (s : Registry)
    (pid oldpid newpid : Int) (h : InBounds s) :
    (∃ r s', do_snapshot procs s pid = some (r, s') ∧ r ≤ 0 ∧ (r ≠ 0 → s' = s)) ∧
    (∃ r s', do_restore_rebind procs s oldpid newpid = some (r, s') ∧ r ≤ 0 ∧
      (r ≠ 0 → s' = s)) := by
  have hE : -EINVAL ≤ 0 := by decide
  have hM : -ENOMEM ≤ 0 := by decide
  constructor
  · rcases do_snapshot_cases procs h pid with ⟨_, heq⟩ | ⟨_, _, heq⟩ | ⟨_, t, _, _, _, heq⟩
    · exact ⟨_, _, heq, hM, fun _ => rfl⟩
    · exact ⟨_, _, heq, hE, fun _ => rfl⟩
    · exact ⟨_, _, heq, le_refl _, fun h0 => absurd rfl h0⟩
  · rcases do_restore_rebind_cases procs h oldpid newpid with
      ⟨_, _, heq⟩ | ⟨i, e, _, _, _, _, _, hcase⟩
    · exact ⟨_, _, heq, hE, fun _ => rfl⟩
    · rcases hcase with ⟨_, last, _, heq⟩ | ⟨_, _, heq⟩ | ⟨_, t, _, _, _, heq⟩
      · exact ⟨_, _, heq, le_refl _, fun h0 => absurd rfl h0⟩
      · exact ⟨_, _, heq, hE, fun _ => rfl⟩
      · exact ⟨_, _, heq, le_refl _, fun h0 => absurd rfl h0⟩

/-- Witness for C7: capturing the kernel thread pid 2 and rebinding pid 100 to
the unresolvable pid 5, from the state holding one capture of pid 100. -/
theorem C7_all_or_nothing_witness :
    InBounds captured_once ∧
      (∃ r s', do_snapshot procs1 captured_once 2 = some (r, s') ∧ r ≤ 0 ∧
        (r ≠ 0 → s' = captured_once)) ∧
      (∃ r s', do_restore_rebind procs1 captured_once 100 5 = some (r, s') ∧ r ≤ 0 ∧
        (r ≠ 0 → s' = captured_once)) :=
  ⟨reachable_inBounds reachable_captured_once,
    C7_all_or_nothing procs1 captured_once 2 100 5
      (reachable_inBounds reachable_captured_once)⟩

/-! ### C8: effect of a successful pure release -/

/-- C8: on every state within the array bounds with `find_snap(oldpid) = i`,
`i ≥ 0`, the call `do_restore_rebind(oldpid, 0)` returns `0`; with `e` the
entry at row `i` before the call, the reference count of the task held by `e`
drops by exactly one and no other count changes (nothing changes if the
pointer is `NULL`), `snaps_count` decreases by one, row `i` receives the former
last live row when `i` was not the last live index, every other live row is
unchanged, and the live rows before the call are `e` together with the live
rows afterwards (as multisets). -/
theorem C8_pure_release_effect (procs : Int → pid_lookup) (s : Registry) (oldpid i : Int)
    (h : InBounds s) (hf : find_snap s oldpid = some i) (hi : 0 ≤ i) :
    ∃ e s', rd s.snaps i = some e ∧
      do_restore_rebind procs s oldpid 0 = some (0, s') ∧
      (∀ t, e.task = some t →
        s'.refs t = s.refs t - 1 ∧ ∀ x, x ≠ t → s'.refs x = s.refs x) ∧
      (e.task = none → s'.refs = s.refs) ∧
      s'.snaps_count = s.snaps_count - 1 ∧
      (i < s.snaps_count - 1 → rd s'.snaps i = rd s.snaps (s.snaps_count - 1)) ∧
      (∀ j, 0 ≤ j → j < s.snaps_count - 1 → j ≠ i → rd s'.snaps j = rd s.snaps j) ∧
      List.Perm (live s) (e :: live s') := by
  rcases do_restore_rebind_cases procs h oldpid 0 with
    ⟨_, hmiss, _⟩ | ⟨n, e, hfind, hn, he, _, _, hcase⟩
  · rw [hmiss] at hf
    have : (-1 : Int) = i := Option.some.inj hf
    omega
  · rw [hfind] at hf
    have hin : (n : Int) = i := Option.some.inj hf
    subst hin
    rcases hcase with ⟨_, last, hlast, heq⟩ | ⟨hne, _⟩ | ⟨hne, _⟩
    · have hcnt := h.count_eq
      obtain ⟨hlt, _⟩ := List.getElem?_eq_some_iff.mp he
      refine ⟨e, released s n e last, by rw [rd_nat, he], heq, ?_, ?_, rfl, ?_, ?_,
        live_released_perm hn he hlast⟩
      · intro t ht
        have hrefs : (released s n e last).refs = refs_after_drop s.refs e := rfl
        rw [hrefs]
        simp only [refs_after_drop, ht]
        exact ⟨by simp, fun x hx => by simp [hx]⟩
      · intro ht
        have hrefs : (released s n e last).refs = refs_after_drop s.refs e := rfl
        rw [hrefs]
        simp only [refs_after_drop, ht]
      · intro hlt'
        have hlt2 : n < s.snaps_count.toNat - 1 := by omega
        have hsn : (released s n e last).snaps = s.snaps.set n last := by
          simp only [released, hlt2, if_true]
        have hc1 : s.snaps_count - 1 = ((s.snaps_count.toNat - 1 : Nat) : Int) := by omega
        rw [hsn, hc1, rd_nat, rd_nat, List.getElem?_set_self hlt, hlast]
      · intro j hj0 hj1 hjn
        lift j to ℕ using hj0
        have hne : n ≠ j := fun hEq => hjn (by rw [hEq])
        have hsn : (released s n e last).snaps[j]? = s.snaps[j]? := by
          simp only [released]
          split <;> exact List.getElem?_set_ne hne
        rw [rd_nat, rd_nat, hsn]
    · exact absurd rfl hne
    · exact absurd rfl hne

/-- Witness for C8: releasing the first of the two rows of `captured_stale`
(pid 250 at row 0, pid 100 at row 1). -/
theorem C8_pure_release_effect_witness :
    ∃ e s', rd captured_stale.snaps 0 = some e ∧
      do_restore_rebind procs1 captured_stale 250 0 = some (0, s') ∧
      (∀ t, e.task = some t →
        s'.refs t = captured_stale.refs t - 1 ∧
          ∀ x, x ≠ t → s'.refs x = captured_stale.refs x) ∧
      (e.task = none → s'.refs = captured_stale.refs) ∧
      s'.snaps_count = captured_stale.snaps_count - 1 ∧
      ((0 : Int) < captured_stale.snaps_count - 1 →
        rd s'.snaps 0 = rd captured_stale.snaps (captured_stale.snaps_count - 1)) ∧
      (∀ j, 0 ≤ j → j < captured_stale.snaps_count - 1 → j ≠ 0 →
        rd s'.snaps j = rd captured_stale.snaps j) ∧
      List.Perm (live captured_stale) (e :: live s') :=
  C8_pure_release_effect procs1 captured_stale 250 0
    (reachable_inBounds reachable_captured_stale) (by decide) (by decide)

/-! ### C9: capture eligibility -/

/-- C9: on every state within the array bounds with `snaps_count < MAX_SNAPS`,
`do_snapshot(pid)` returns `0` exactly when `pid` resolves to a task that is
not a kernel thread and has a non-null `mm`; otherwise it returns a negative
status and the state is unchanged. -/
theorem C9_capture_eligibility (procs : Int → pid_lookup) (s : Registry) (pid : Int)
    (h : InBounds s) (hc : s.snaps_count < (MAX_SNAPS : Int)) :
    ∃ r s', do_snapshot procs s pid = some (r, s') ∧
      (r = 0 ↔ eligible (procs pid)) ∧
      (¬ eligible (procs pid) → r < 0 ∧ s' = s) := by
  rcases do_snapshot_cases procs h pid with
    ⟨hfull, _⟩ | ⟨_, hne, heq⟩ | ⟨_, t, hp, hk, hm, heq⟩
  · omega
  · refine ⟨_, _, heq, ?_, fun _ => ⟨by decide, rfl⟩⟩
    exact ⟨fun h0 => absurd h0 neg_EINVAL_ne_zero, fun he => absurd he hne⟩
  · have hel : eligible (procs pid) := ⟨t, hp, hk, hm⟩
    exact ⟨_, _, heq, ⟨fun _ => hel, fun _ => rfl⟩, fun hne => absurd hel hne⟩

/-- Witness for C9: the kernel thread pid 2 is rejected from the state holding
one capture. -/
theorem C9_capture_eligibility_witness :
    InBounds captured_once ∧ captured_once.snaps_count < (MAX_SNAPS : Int) ∧
      ∃ r s', do_snapshot procs1 captured_once 2 = some (r, s') ∧
        (r = 0 ↔ eligible (procs1 2)) ∧
        (¬ eligible (procs1 2) → r < 0 ∧ s' = captured_once) :=
  ⟨reachable_inBounds reachable_captured_once, by decide,
    C9_capture_eligibility procs1 captured_once 2
      (reachable_inBounds reachable_captured_once) (by decide)⟩

/-! ### C10: reference accounting -/

/-- One `do_snapshot` call preserves the reference accounting. -/
theorem refsAccounted_do_snapshot {procs : Int → pid_lookup} {s s' : Registry}
    {pid r : Int} (h : InBounds s) (hr : RefsAccounted s)
    (hstep : do_snapshot procs s pid = some (r, s')) : RefsAccounted s' := by
  rcases do_snapshot_cases procs h pid with ⟨_, heq⟩ | ⟨_, _, heq⟩ | ⟨hc, t, _, _, _, heq⟩
  · rw [heq] at hstep; cases hstep; exact hr
  · rw [heq] at hstep; cases hstep; exact hr
  · rw [heq] at hstep; cases hstep; exact refsAccounted_captured h hc hr pid t

/-- One `do_restore_rebind` call preserves the reference accounting. -/
theorem refsAccounted_do_restore_rebind {procs : Int → pid_lookup} {s s' : Registry}
    {oldpid newpid r : Int} (h : InBounds s) (hr : RefsAccounted s)
    (hstep : do_restore_rebind procs s oldpid newpid = some (r, s')) : RefsAccounted s' := by
  rcases do_restore_rebind_cases procs h oldpid newpid with
    ⟨_, _, heq⟩ | ⟨i, e, _, hi, he, _, _, hcase⟩
  · rw [heq] at hstep; cases hstep; exact hr
  · rcases hcase with ⟨_, last, hlast, heq⟩ | ⟨_, _, heq⟩ | ⟨_, t, _, _, _, heq⟩
    · rw [heq] at hstep; cases hstep; exact refsAccounted_released hr hi he hlast
    · rw [heq] at hstep; cases hstep; exact hr
    · rw [heq] at hstep; cases hstep; exact refsAccounted_rebound hr hi he newpid t

/-- C10: in every reachable state every live entry has a non-null task, and
for every task the number of references the registry holds on it
(`get_task_struct` counted `+1`, `put_task_struct` counted `-1`) equals the
number of live entries whose task field is that task. -/
theorem C10_reference_accounting (s : Registry) (h : Reachable s) :
    (∀ e ∈ live s, e.task ≠ none) ∧ ∀ t, s.refs t = (holders s t : Int) := by
  induction h with
  | init => exact refsAccounted_init
  | snapshot procs pid hs hstep ih =>
    exact refsAccounted_do_snapshot (reachable_inBounds hs) ih hstep
  | restore procs oldpid newpid hs hstep ih =>
    exact refsAccounted_do_restore_rebind (reachable_inBounds hs) ih hstep

/-- Witness for C10 at the state holding two captures of the same task: the
registry holds two references on the task at address 7. -/
theorem C10_reference_accounting_witness :
    Reachable captured_twice ∧ captured_twice.refs 7 = 2 ∧ holders captured_twice 7 = 2 ∧
      captured_twice.refs 7 = (holders captured_twice 7 : Int) :=
  ⟨reachable_captured_twice, by decide, by decide,
    (C10_reference_accounting captured_twice reachable_captured_twice).2 7⟩

/-! ### C11 and C12: the order of statements inside a rebind -/

/-- Closed form of the statement-by-statement run of a rebind of row `i`,
which holds `e` with task `told`. -/
theorem rebind_trace_ok {s : Registry} {i : Nat} {e : snap_entry} {told : Nat}
    (newpid : Int) (t : task_struct) (he : s.snaps[i]? = some e) (hta : e.task = some told) :
    rebind_trace s (i : Int) newpid t = some
      [(rebind_stmt.get_new, get_task_struct s t.addr),
       (rebind_stmt.put_old, put_task_struct (get_task_struct s t.addr) told),
       (rebind_stmt.set_task,
         { snaps := s.snaps.set i ⟨e.pid, some t.addr, e.uid, e.comm⟩
           snaps_count := s.snaps_count
           refs := (put_task_struct (get_task_struct s t.addr) told).refs }),
       (rebind_stmt.set_pid,
         { snaps := s.snaps.set i ⟨newpid, some t.addr, e.uid, e.comm⟩
           snaps_count := s.snaps_count
           refs := (put_task_struct (get_task_struct s t.addr) told).refs }),
       (rebind_stmt.set_uid,
         { snaps := s.snaps.set i ⟨newpid, some t.addr, t.uid, e.comm⟩
           snaps_count := s.snaps_count
           refs := (put_task_struct (get_task_struct s t.addr) told).refs }),
       (rebind_stmt.set_comm, rebound s i newpid t e)] := by
  obtain ⟨snaps, cnt, refs⟩ := s
  simp only at he
  obtain ⟨hlt, hget⟩ := List.getElem?_eq_some_iff.mp he
  simp [rebind_trace, get_task_struct, put_task_struct, store_nat, hlt, rd_nat, entry_of,
    he, hta, refs_after_drop, rebound, hget]

theorem reachable_refsAccounted {s : Registry} (h : Reachable s) : RefsAccounted s := by
  induction h with
  | init => exact refsAccounted_init
  | snapshot procs pid hs hstep ih =>
    exact refsAccounted_do_snapshot (reachable_inBounds hs) ih hstep
  | restore procs oldpid newpid hs hstep ih =>
    exact refsAccounted_do_restore_rebind (reachable_inBounds hs) ih hstep

theorem holders_pos {s : Registry} {e : snap_entry} {x : Nat} (hmem : e ∈ live s)
    (hta : e.task = some x) : 1 ≤ holders s x := by
  unfold holders
  exact List.countP_pos_iff.mpr ⟨e, hmem, by simp [hta]⟩

theorem refs_nonneg {s : Registry} (hr : RefsAccounted s) (x : Nat) : 0 ≤ s.refs x := by
  rw [hr.2 x]
  exact Int.ofNat_nonneg _

/-- A successful rebind from a reachable state, statement by statement: the
row found, the task it held, the task the new pid resolved to, the six states
of the run, their reference counts and what row `i` holds in each. -/
theorem rebind_run {procs : Int → pid_lookup} {s s' : Registry} {oldpid newpid : Int}
    (h : Reachable s) (hn : newpid ≠ 0)
    (hstep : do_restore_rebind procs s oldpid newpid = some (0, s')) :
    ∃ (i : Nat) (e : snap_entry) (told : Nat) (t : task_struct) (σ1 σ2 σ3 σ4 σ5 : Registry),
      find_snap s oldpid = some (i : Int) ∧ rd s.snaps (i : Int) = some e ∧
      e.task = some told ∧ procs newpid = .task t ∧ 1 ≤ s.refs told ∧ 0 ≤ s.refs t.addr ∧
      rebind_trace s (i : Int) newpid t = some
        [(rebind_stmt.get_new, σ1), (rebind_stmt.put_old, σ2), (rebind_stmt.set_task, σ3),
         (rebind_stmt.set_pid, σ4), (rebind_stmt.set_uid, σ5), (rebind_stmt.set_comm, s')] ∧
      (∀ x, σ1.refs x = if x = t.addr then s.refs x + 1 else s.refs x) ∧
      (∀ σ ∈ [σ2, σ3, σ4, σ5, s'], ∀ x, σ.refs x =
        if x = told then (if x = t.addr then s.refs x + 1 else s.refs x) - 1
        else if x = t.addr then s.refs x + 1 else s.refs x) ∧
      (∀ σ ∈ [σ1, σ2], rd σ.snaps (i : Int) = some e) ∧
      (∀ σ ∈ [σ3, σ4, σ5, s'], ∃ e', rd σ.snaps (i : Int) = some e' ∧
        e'.task = some t.addr) := by
  have hb := reachable_inBounds h
  have hr := reachable_refsAccounted h
  obtain ⟨i, e, t, hf, hi, he, _, hp, _, _, hs'⟩ := do_restore_rebind_success hb hn hstep
  have hmem := mem_live_of_getElem? hi he
  obtain ⟨hlt, _⟩ := List.getElem?_eq_some_iff.mp he
  cases hta : e.task with
  | none => exact absurd hta (hr.1 e hmem)
  | some told =>
    have hpos : 1 ≤ s.refs told := by
      rw [hr.2 told]
      exact_mod_cast holders_pos hmem hta
    have htr := rebind_trace_ok newpid t he hta
    rw [← hs'] at htr
    have hrefs' : s'.refs = refs_after_drop
      (fun x => if x = t.addr then s.refs x + 1 else s.refs x) e := by rw [hs']; rfl
    have hsn' : s'.snaps = s.snaps.set i (entry_of newpid t) := by rw [hs']; rfl
    refine ⟨i, e, told, t, _, _, _, _, _, hf, by rw [rd_nat, he], hta, hp, hpos,
      refs_nonneg hr _, htr, fun x => rfl, ?_, ?_, ?_⟩
    · intro σ hσ x
      simp only [List.mem_cons, List.mem_singleton, List.not_mem_nil, or_false] at hσ
      rcases hσ with rfl | rfl | rfl | rfl | rfl
      · rfl
      · rfl
      · rfl
      · rfl
      · rw [hrefs']
        simp only [refs_after_drop, hta]
    · intro σ hσ
      simp only [List.mem_cons, List.mem_singleton, List.not_mem_nil, or_false] at hσ
      rcases hσ with rfl | rfl
      · simp only [get_task_struct, rd_nat, he, hta]
      · simp only [get_task_struct, put_task_struct, rd_nat, he, hta]
    · intro σ hσ
      simp only [List.mem_cons, List.mem_singleton, List.not_mem_nil, or_false] at hσ
      rcases hσ with rfl | rfl | rfl | rfl
      · exact ⟨_, by rw [rd_nat]; exact List.getElem?_set_self hlt, rfl⟩
      · exact ⟨_, by rw [rd_nat]; exact List.getElem?_set_self hlt, rfl⟩
      · exact ⟨_, by rw [rd_nat]; exact List.getElem?_set_self hlt, rfl⟩
      · exact ⟨_, by rw [rd_nat, hsn']; exact List.getElem?_set_self hlt, rfl⟩

/-- C11: in every successful rebind from a reachable state the statements run
in the order get new, put old, then the four stores; the old task still has
its reference in the state right after the get, the new task has at least one
registry-held reference in every state of the run (and the old one before
it), and when the new pid resolves to the task the row already holds, that
task's count is at least one throughout and the same at the end as at the
start. -/
theorem C11_get_before_put (procs : Int → pid_lookup) (s s' : Registry)
    (oldpid newpid : Int) (h : Reachable s) (hn : newpid ≠ 0)
    (hstep : do_restore_rebind procs s oldpid newpid = some (0, s')) :
    ∃ (i : Nat) (e : snap_entry) (told : Nat) (t : task_struct)
      (tr : List (rebind_stmt × Registry)),
      find_snap s oldpid = some (i : Int) ∧ rd s.snaps (i : Int) = some e ∧
      e.task = some told ∧ procs newpid = .task t ∧
      rebind_trace s (i : Int) newpid t = some tr ∧
      tr.map Prod.fst =
        [rebind_stmt.get_new, rebind_stmt.put_old, rebind_stmt.set_task,
         rebind_stmt.set_pid, rebind_stmt.set_uid, rebind_stmt.set_comm] ∧
      tr.getLast?.map Prod.snd = some s' ∧
      1 ≤ s.refs told ∧
      (∀ p ∈ tr, p.1 = rebind_stmt.get_new →
        1 ≤ p.2.refs told ∧ p.2.refs t.addr = s.refs t.addr + 1) ∧
      (∀ p ∈ tr, 1 ≤ p.2.refs told ∨ 1 ≤ p.2.refs t.addr) ∧
      (t.addr = told → (∀ p ∈ tr, 1 ≤ p.2.refs told) ∧ s'.refs told = s.refs told) := by
  obtain ⟨i, e, told, t, σ1, σ2, σ3, σ4, σ5, hf, he, hta, hp, hpos, hnn, htr, h1, h2, _, _⟩ :=
    rebind_run h hn hstep
  have hnew1 : 1 ≤ σ1.refs t.addr := by rw [h1]; simp only [if_true]; omega
  have hnew2 : ∀ σ ∈ [σ2, σ3, σ4, σ5, s'], 1 ≤ σ.refs t.addr := by
    intro σ hσ
    by_cases hc : t.addr = told
    · rw [h2 σ hσ, if_pos hc, if_pos rfl]
      rw [← hc] at hpos
      omega
    · rw [h2 σ hσ, if_neg hc, if_pos rfl]
      omega
  refine ⟨i, e, told, t, _, hf, he, hta, hp, htr, rfl, rfl, hpos, ?_, ?_, ?_⟩
  · intro p hpm hp1
    simp only [List.mem_cons, List.mem_singleton, List.not_mem_nil, or_false] at hpm
    rcases hpm with rfl | rfl | rfl | rfl | rfl | rfl <;> simp at hp1
    refine ⟨?_, by rw [h1]; simp⟩
    show 1 ≤ σ1.refs told
    rw [h1]
    split_ifs <;> omega
  · intro p hpm
    right
    simp only [List.mem_cons, List.mem_singleton, List.not_mem_nil, or_false] at hpm
    rcases hpm with rfl | rfl | rfl | rfl | rfl | rfl
    · exact hnew1
    · exact hnew2 _ (by simp)
    · exact hnew2 _ (by simp)
    · exact hnew2 _ (by simp)
    · exact hnew2 _ (by simp)
    · exact hnew2 _ (by simp)
  · intro hsame
    have hold2 : ∀ σ ∈ [σ2, σ3, σ4, σ5, s'], σ.refs told = s.refs told := by
      intro σ hσ
      rw [h2 σ hσ]
      simp [hsame]
    refine ⟨?_, hold2 s' (by simp)⟩
    intro p hpm
    simp only [List.mem_cons, List.mem_singleton, List.not_mem_nil, or_false] at hpm
    rcases hpm with rfl | rfl | rfl | rfl | rfl | rfl
    · show 1 ≤ σ1.refs told
      rw [h1]; simp only [hsame, if_true]; omega
    · show 1 ≤ σ2.refs told
      rw [hold2 _ (by simp)]; exact hpos
    · show 1 ≤ σ3.refs told
      rw [hold2 _ (by simp)]; exact hpos
    · show 1 ≤ σ4.refs told
      rw [hold2 _ (by simp)]; exact hpos
    · show 1 ≤ σ5.refs told
      rw [hold2 _ (by simp)]; exact hpos
    · show 1 ≤ s'.refs told
      rw [hold2 _ (by simp)]; exact hpos
/-- Witness for C11: rebinding the only entry, pid 100 held as the task at
address 7, to pid 250. -/
theorem C11_get_before_put_witness :
    ∃ (i : Nat) (e : snap_entry) (told : Nat) (t : task_struct)
      (tr : List (rebind_stmt × Registry)),
      find_snap captured_once 100 = some (i : Int) ∧
      rd captured_once.snaps (i : Int) = some e ∧
      e.task = some told ∧ procs1 250 = .task t ∧
      rebind_trace captured_once (i : Int) 250 t = some tr ∧
      tr.map Prod.fst =
        [rebind_stmt.get_new, rebind_stmt.put_old, rebind_stmt.set_task,
         rebind_stmt.set_pid, rebind_stmt.set_uid, rebind_stmt.set_comm] ∧
      tr.getLast?.map Prod.snd =
        some (after (do_restore_rebind procs1 captured_once 100 250) captured_once) ∧
      1 ≤ captured_once.refs told ∧
      (∀ p ∈ tr, p.1 = rebind_stmt.get_new →
        1 ≤ p.2.refs told ∧ p.2.refs t.addr = captured_once.refs t.addr + 1) ∧
      (∀ p ∈ tr, 1 ≤ p.2.refs told ∨ 1 ≤ p.2.refs t.addr) ∧
      (t.addr = told → (∀ p ∈ tr, 1 ≤ p.2.refs told) ∧
        (after (do_restore_rebind procs1 captured_once 100 250) captured_once).refs told =
          captured_once.refs told) :=
  C11_get_before_put procs1 captured_once
    (after (do_restore_rebind procs1 captured_once 100 250) captured_once) 100 250
    reachable_captured_once (by decide) rfl

/-- C12 (as stated, refuted): rebinding pid 100 (task at address 7, one
reference) to pid 250 (task at address 9) from a reachable state succeeds, and
in the state right after `put_task_struct`, before the task field is stored,
row 0 still names the task at address 7 while the registry holds no reference
on it. -/
theorem C12_row_names_dropped_task :
    Reachable captured_once ∧
      status (do_restore_rebind procs1 captured_once 100 250) = some 0 ∧
      find_snap captured_once 100 = some 0 ∧ procs1 250 = .task taskB ∧
      (rebind_trace captured_once 0 250 taskB).map (fun tr => tr.map (trace_view 0 7)) =
        some [(rebind_stmt.get_new, some (some 7), 1), (rebind_stmt.put_old, some (some 7), 0),
              (rebind_stmt.set_task, some (some 9), 0), (rebind_stmt.set_pid, some (some 9), 0),
              (rebind_stmt.set_uid, some (some 9), 0),
              (rebind_stmt.set_comm, some (some 9), 0)] ∧
      ∃ tr, rebind_trace captured_once 0 250 taskB = some tr ∧
        ¬ ∀ p ∈ tr, row_task_held 0 p.2 := by
  refine ⟨reachable_captured_once, by decide, by decide, by decide, by decide, ?_⟩
  have he : captured_once.snaps[0]? = some ⟨100, some 7, 1000, [98]⟩ := by decide
  refine ⟨_, rebind_trace_ok 250 taskB he rfl, ?_⟩
  intro hall
  have h1 := hall (rebind_stmt.put_old,
    put_task_struct (get_task_struct captured_once taskB.addr) 7) (by simp)
    ⟨100, some 7, 1000, [98]⟩ 7 (by decide) rfl
  exact absurd h1 (by decide)

/-- C12 (amended): in every successful rebind from a reachable state the
statements run in the order get new, put old, store task, store pid, store
uid, store comm, so the old reference is dropped before the row is updated.
In every state of the run other than the one right after the put, the task
named by the row has at least one registry-held reference; in the state right
after the put the row still names the old task, whose count is one less than
before the call (unchanged when the new pid resolves to the same task). -/
theorem C12_row_task_held_except_after_put (procs : Int → pid_lookup) (s s' : Registry)
    (oldpid newpid : Int) (h : Reachable s) (hn : newpid ≠ 0)
    (hstep : do_restore_rebind procs s oldpid newpid = some (0, s')) :
    ∃ (i : Nat) (e : snap_entry) (told : Nat) (t : task_struct)
      (tr : List (rebind_stmt × Registry)),
      find_snap s oldpid = some (i : Int) ∧ rd s.snaps (i : Int) = some e ∧
      e.task = some told ∧ procs newpid = .task t ∧
      rebind_trace s (i : Int) newpid t = some tr ∧
      tr.map Prod.fst =
        [rebind_stmt.get_new, rebind_stmt.put_old, rebind_stmt.set_task,
         rebind_stmt.set_pid, rebind_stmt.set_uid, rebind_stmt.set_comm] ∧
      tr.getLast?.map Prod.snd = some s' ∧
      (∀ p ∈ tr, p.1 ≠ rebind_stmt.put_old → row_task_held (i : Int) p.2) ∧
      (∀ p ∈ tr, p.1 = rebind_stmt.put_old →
        rd p.2.snaps (i : Int) = some e ∧
        p.2.refs told = if told = t.addr then s.refs told else s.refs told - 1) := by
  obtain ⟨i, e, told, t, σ1, σ2, σ3, σ4, σ5, hf, he, hta, hp, hpos, hnn, htr, h1, h2, h3, h4⟩ :=
    rebind_run h hn hstep
  have hnew2 : ∀ σ ∈ [σ2, σ3, σ4, σ5, s'], 1 ≤ σ.refs t.addr := by
    intro σ hσ
    by_cases hc : t.addr = told
    · rw [h2 σ hσ, if_pos hc, if_pos rfl]
      rw [← hc] at hpos
      omega
    · rw [h2 σ hσ, if_neg hc, if_pos rfl]
      omega
  have hheld : ∀ σ ∈ [σ3, σ4, σ5, s'], row_task_held (i : Int) σ := by
    intro σ hσ e' x hrd hx
    obtain ⟨e'', hrd', hx'⟩ := h4 σ hσ
    rw [hrd] at hrd'
    cases hrd'
    rw [hx] at hx'
    cases hx'
    exact hnew2 σ (List.mem_cons_of_mem _ hσ)
  refine ⟨i, e, told, t, _, hf, he, hta, hp, htr, rfl, rfl, ?_, ?_⟩
  · intro p hpm hne
    simp only [List.mem_cons, List.mem_singleton, List.not_mem_nil, or_false] at hpm
    rcases hpm with rfl | rfl | rfl | rfl | rfl | rfl
    · intro e' x hrd hx
      rw [h3 σ1 (by simp)] at hrd
      cases hrd
      rw [hta] at hx
      cases hx
      show 1 ≤ σ1.refs told
      rw [h1]
      split_ifs <;> omega
    · exact absurd rfl hne
    · exact hheld _ (by simp)
    · exact hheld _ (by simp)
    · exact hheld _ (by simp)
    · exact hheld _ (by simp)
  · intro p hpm hp1
    simp only [List.mem_cons, List.mem_singleton, List.not_mem_nil, or_false] at hpm
    rcases hpm with rfl | rfl | rfl | rfl | rfl | rfl <;> simp at hp1
    refine ⟨h3 σ2 (by simp), ?_⟩
    show σ2.refs told = _
    rw [h2 σ2 (by simp), if_pos rfl]
    split_ifs <;> omega

/-- Witness for C12 (amended): rebinding the only entry, pid 100, to pid 250. -/
theorem C12_row_task_held_except_after_put_witness :
    ∃ (i : Nat) (e : snap_entry) (told : Nat) (t : task_struct)
      (tr : List (rebind_stmt × Registry)),
      find_snap captured_once 100 = some (i : Int) ∧
      rd captured_once.snaps (i : Int) = some e ∧
      e.task = some told ∧ procs1 250 = .task t ∧
      rebind_trace captured_once (i : Int) 250 t = some tr ∧
      tr.map Prod.fst =
        [rebind_stmt.get_new, rebind_stmt.put_old, rebind_stmt.set_task,
         rebind_stmt.set_pid, rebind_stmt.set_uid, rebind_stmt.set_comm] ∧
      tr.getLast?.map Prod.snd =
        some (after (do_restore_rebind procs1 captured_once 100 250) captured_once) ∧
      (∀ p ∈ tr, p.1 ≠ rebind_stmt.put_old → row_task_held (i : Int) p.2) ∧
      (∀ p ∈ tr, p.1 = rebind_stmt.put_old →
        rd p.2.snaps (i : Int) = some e ∧
        p.2.refs told =
          if told = t.addr then captured_once.refs told else captured_once.refs told - 1) :=
  C12_row_task_held_except_after_put procs1 captured_once
    (after (do_restore_rebind procs1 captured_once 100 250) captured_once) 100 250
    reachable_captured_once (by decide) rfl

/-! ### C13, C14, C19: validation of the respawned process -/

theorem strrchr_eq_none (p : List Nat) (c : Nat) : strrchr p c = none ↔ c ∉ p := by
  induction p with
  | nil => simp [strrchr]
  | cons x xs ih =>
    cases hs : strrchr xs c with
    | none =>
      have hnot := ih.mp hs
      by_cases hx : x = c
      · simp [strrchr, hs, hx]
      · simp [strrchr, hs, hx, hnot, Ne.symm hx]
    | some r =>
      have hmem : c ∈ xs := by
        by_contra hc
        rw [ih.mpr hc] at hs
        cases hs
      simp [strrchr, hs, hmem]

theorem text_after_last_slash_of_not_mem (p : List Nat) (h : 47 ∉ p) :
    text_after_last_slash p = p := by
  unfold text_after_last_slash
  have hall : ∀ a ∈ p.reverse, (fun ch => decide (ch ≠ 47)) a = true := by
    intro a ha
    have : a ≠ 47 := fun hEq => h (hEq ▸ List.mem_reverse.mp ha)
    simpa using this
  rw [List.takeWhile_eq_self_iff.mpr hall, List.reverse_reverse]

theorem text_after_last_slash_cons (x : Nat) (xs : List Nat) :
    text_after_last_slash (x :: xs) =
      if 47 ∈ xs then text_after_last_slash xs else if x = 47 then xs else x :: xs := by
  by_cases hmem : 47 ∈ xs
  · rw [if_pos hmem]
    unfold text_after_last_slash
    rw [List.reverse_cons, List.takeWhile_append]
    have hne : ¬ (List.takeWhile (fun ch => decide (ch ≠ 47)) xs.reverse).length
        = xs.reverse.length := by
      intro hlen
      have hself : List.takeWhile (fun ch => decide (ch ≠ 47)) xs.reverse = xs.reverse :=
        (List.takeWhile_sublist _).eq_of_length hlen
      have hall := List.takeWhile_eq_self_iff.mp hself 47 (List.mem_reverse.mpr hmem)
      simp at hall
    rw [if_neg hne]
  · rw [if_neg hmem]
    by_cases hx : x = 47
    · rw [if_pos hx]
      unfold text_after_last_slash
      have hall : ∀ a ∈ xs.reverse, (fun ch => decide (ch ≠ 47)) a = true := by
        intro a ha
        have : a ≠ 47 := fun hEq => hmem (hEq ▸ List.mem_reverse.mp ha)
        simpa using this
      rw [List.reverse_cons, List.takeWhile_append_of_pos hall]
      simp [hx]
    · rw [if_neg hx]
      apply text_after_last_slash_of_not_mem
      simp [hmem, Ne.symm hx]

theorem strrchr_tail (xs r : List Nat) (h : strrchr xs 47 = some r) :
    r.tail = text_after_last_slash xs := by
  induction xs generalizing r with
  | nil => simp [strrchr] at h
  | cons y ys ih =>
    rw [text_after_last_slash_cons]
    cases hs : strrchr ys 47 with
    | some r' =>
      have hmem : 47 ∈ ys := by
        by_contra hc
        rw [(strrchr_eq_none ys 47).mpr hc] at hs
        cases hs
      simp only [strrchr, hs] at h
      cases h
      rw [if_pos hmem]
      exact ih r hs
    | none =>
      have hnot := (strrchr_eq_none ys 47).mp hs
      rw [if_neg hnot]
      simp only [strrchr, hs] at h
      by_cases hy : y = 47
      · rw [if_pos hy] at h
        cases h
        rw [if_pos hy]
        rfl
      · rw [if_neg hy] at h
        cases h

/-- The helper `path_basename_ptr` returns, for a non-empty path, the text
after its last slash (the whole path when it has no slash). -/
theorem path_basename_ptr_eq (p : List Nat) (h : p ≠ []) :
    path_basename_ptr p = some (text_after_last_slash p) := by
  unfold path_basename_ptr
  rw [if_neg h]
  cases hs : strrchr p 47 with
  | some b => simp only [strrchr_tail p b hs]
  | none =>
    simp only [text_after_last_slash_of_not_mem p ((strrchr_eq_none p 47).mp hs)]

/-- C13: when the saved `exe_path` and the live resolved exe path are both
non-empty, validation accepts (`valid = 1`, otherwise `valid = 0`) exactly
when the two paths are equal or the texts after their last slash are equal. -/
theorem C13_validation_by_path (sp : SavedProcess) (exe_read comm_read : List Nat)
    (h1 : sp.exe_path ≠ []) (h2 : exe_read ≠ []) :
    (restore_valid sp exe_read comm_read = 1 ↔
      (sp.exe_path = exe_read ∨
        text_after_last_slash sp.exe_path = text_after_last_slash exe_read)) ∧
    (restore_valid sp exe_read comm_read = 0 ∨ restore_valid sp exe_read comm_read = 1) := by
  unfold restore_valid
  rw [if_pos ⟨h1, h2⟩, path_basename_ptr_eq _ h1, path_basename_ptr_eq _ h2]
  by_cases heq : sp.exe_path = exe_read
  · simp [heq]
  · by_cases hb : text_after_last_slash sp.exe_path = text_after_last_slash exe_read
    · simp [heq, hb]
    · simp [heq, hb]

/-- Witness for C13: saved `/usr/bin/foo` against live `/opt/bin/foo` is
accepted through the basename `foo`. -/
theorem C13_validation_by_path_witness :
    restore_valid rec100 (cs "/opt/bin/foo") (cs "zsh") = 1 :=
  (C13_validation_by_path rec100 (cs "/opt/bin/foo") (cs "zsh")
    (by decide) (by decide)).1.mpr (Or.inr (by decide))

/-- C14 (as stated, refuted): the saved record has name `foo` and executable
`/usr/bin/foo`; a live candidate with short name `foo` but executable
`/opt/bin/bar` is rejected, because with both paths readable the short names
are never compared. -/
theorem C14_name_match_not_consulted :
    rec100.name ≠ [] ∧ rec100.name = cs "foo" ∧
      restore_valid rec100 (cs "/opt/bin/bar") (cs "foo") = 0 :=
  ⟨by decide, by decide, by decide⟩

/-- C14 (amended): validation compares the executable paths (exact, then by
basename) whenever both are non-empty, and in that case the names play no
part; the short names are compared only when the saved or the live executable
path is empty, and then a saved name that is non-empty and equal to the live
short name is accepted; a record with neither `exe_path` nor `name` accepts
every candidate. -/
theorem C14_validation_precedence (sp : SavedProcess) (exe_read comm_read : List Nat) :
    (sp.exe_path ≠ [] → exe_read ≠ [] → ∀ (name comm : List Nat),
      restore_valid { sp with name := name } exe_read comm =
        restore_valid sp exe_read comm_read) ∧
    (sp.name ≠ [] → sp.name = comm_read → (sp.exe_path = [] ∨ exe_read = []) →
      restore_valid sp exe_read comm_read = 1) ∧
    (sp.exe_path = [] → sp.name = [] → restore_valid sp exe_read comm_read = 1) := by
  refine ⟨?_, ?_, ?_⟩
  · intro h1 h2 name comm
    simp only [restore_valid, h1, h2, ne_eq, not_false_eq_true, and_self, if_true]
  · intro hn heq hpath
    have hc : comm_read ≠ [] := heq ▸ hn
    have hnot : ¬ (sp.exe_path ≠ [] ∧ exe_read ≠ []) := by
      rintro ⟨a, b⟩
      rcases hpath with hp | hp
      · exact a hp
      · exact b hp
    simp only [restore_valid, if_neg hnot, if_pos (And.intro hn hc), if_pos heq]
  · intro he hn
    simp [restore_valid, he, hn]

/-- Witness for C14 (amended): with the live executable path unreadable, the
saved name `foo` matching the live short name `foo` is accepted. -/
theorem C14_validation_precedence_witness :
    restore_valid rec100 [] (cs "foo") = 1 :=
  (C14_validation_precedence rec100 [] (cs "foo")).2.1 (by decide) (by decide)
    (Or.inr rfl)

/-- C19: validation accepts without any comparison when the live exe path is
empty and the saved name or the live short name is empty, and likewise when
the saved `exe_path` is empty and either name is empty; a rejection
(`valid = 0`) only happens when two non-empty paths differ or two non-empty
names differ. -/
theorem C19_accepts_when_nothing_to_compare (sp : SavedProcess)
    (exe_read comm_read : List Nat) :
    (exe_read = [] → (sp.name = [] ∨ comm_read = []) →
      restore_valid sp exe_read comm_read = 1) ∧
    (sp.exe_path = [] → (sp.name = [] ∨ comm_read = []) →
      restore_valid sp exe_read comm_read = 1) ∧
    (restore_valid sp exe_read comm_read = 0 →
      (sp.exe_path ≠ [] ∧ exe_read ≠ [] ∧ sp.exe_path ≠ exe_read) ∨
      (sp.name ≠ [] ∧ comm_read ≠ [] ∧ sp.name ≠ comm_read)) := by
  have hnames : (sp.name = [] ∨ comm_read = []) → ¬ (sp.name ≠ [] ∧ comm_read ≠ []) := by
    rintro (h | h) ⟨a, b⟩
    · exact a h
    · exact b h
  refine ⟨?_, ?_, ?_⟩
  · intro he hn
    have h1 : ¬ (sp.exe_path ≠ [] ∧ exe_read ≠ []) := fun h => h.2 he
    simp only [restore_valid, if_neg h1, if_neg (hnames hn)]
  · intro he hn
    have h1 : ¬ (sp.exe_path ≠ [] ∧ exe_read ≠ []) := fun h => h.1 he
    simp only [restore_valid, if_neg h1, if_neg (hnames hn)]
  · intro h0
    unfold restore_valid at h0
    by_cases hp : sp.exe_path ≠ [] ∧ exe_read ≠ []
    · rw [if_pos hp] at h0
      by_cases heq : sp.exe_path = exe_read
      · rw [if_pos heq] at h0
        exact absurd h0 (by decide)
      · exact Or.inl ⟨hp.1, hp.2, heq⟩
    · rw [if_neg hp] at h0
      by_cases hn : sp.name ≠ [] ∧ comm_read ≠ []
      · rw [if_pos hn] at h0
        by_cases heq : sp.name = comm_read
        · rw [if_pos heq] at h0
          exact absurd h0 (by decide)
        · exact Or.inr ⟨hn.1, hn.2, heq⟩
      · rw [if_neg hn] at h0
        exact absurd h0 (by decide)

/-- Witness for C19: the record with both `exe_path` and `name` saved accepts
a candidate whose exe path and short name are both unreadable. -/
theorem C19_accepts_when_nothing_to_compare_witness :
    rec100.exe_path ≠ [] ∧ rec100.name ≠ [] ∧ restore_valid rec100 [] [] = 1 :=
  ⟨by decide, by decide,
    (C19_accepts_when_nothing_to_compare rec100 [] []).1 rfl (Or.inr rfl)⟩

/-! ### The saved table: array access, lookup and removal -/

theorem saved_rd_nat (a : List SavedProcess) (n : Nat) : saved_rd a (n : Int) = a[n]? := by
  simp [saved_rd]

theorem saved_wr_nat (a : List SavedProcess) (n : Nat) (x : SavedProcess)
    (h : n < a.length) : saved_wr a (n : Int) x = some (a.set n x) := by
  simp [saved_wr, h]

theorem cli_saved_count_le {c : Cli} (h : CliInBounds c) :
    c.saved_count.toNat ≤ c.saved.length := by
  have h1 := h.1
  have h2 := h.2.2
  have h3 := h.2.1
  omega

theorem cliInBounds_init : CliInBounds cli_init := by
  refine ⟨?_, ?_, ?_⟩ <;> simp [cli_init, MAX_SAVED]

theorem cliInBounds_one : CliInBounds cli_one := by
  refine ⟨?_, ?_, ?_⟩ <;> simp [cli_one, MAX_SAVED]

theorem cliInBounds_full : CliInBounds cli_full := by
  refine ⟨?_, ?_, ?_⟩ <;> simp [cli_full, MAX_SAVED]

/-- What the search loop computes on the rows `m .. m + k - 1`. -/
theorem find_saved_loop_spec (saved : List SavedProcess) (oldpid : Int) :
    ∀ (k m : Nat), m + k ≤ saved.length →
      ∃ r, find_saved_loop saved oldpid k (m : Int) = some r ∧
        (r = -1 ∨
         (∃ n : Nat, r = (n : Int) ∧ m ≤ n ∧ n < m + k ∧
            ∃ sp, saved[n]? = some sp ∧ sp.old_pid = oldpid)) := by
  intro k
  induction k with
  | zero =>
    intro m _
    exact ⟨-1, rfl, Or.inl rfl⟩
  | succ k ih =>
    intro m hm
    have hlt : m < saved.length := by omega
    have hrd : saved_rd saved (m : Int) = some saved[m] := by
      rw [saved_rd_nat, List.getElem?_eq_getElem hlt]
    by_cases hp : saved[m].old_pid = oldpid
    · refine ⟨(m : Int), ?_, Or.inr ⟨m, rfl, le_refl _, by omega, ?_⟩⟩
      · simp [find_saved_loop, hrd, hp]
      · exact ⟨saved[m], List.getElem?_eq_getElem hlt, hp⟩
    · obtain ⟨r, hr, hspec⟩ := ih (m + 1) (by omega)
      refine ⟨r, ?_, ?_⟩
      · have hcast : ((m : Int) + 1) = ((m + 1 : Nat) : Int) := by push_cast; rfl
        rw [find_saved_loop, hrd]
        simp only [hp, if_false]
        rw [hcast, hr]
      · rcases hspec with h1 | ⟨n, h1, h2, h3, h4⟩
        · exact Or.inl h1
        · exact Or.inr ⟨n, h1, by omega, by omega, h4⟩

/-- On a saved table within bounds the lookup returns `-1` or the index of a
live record with the requested old pid. -/
theorem find_saved_spec {c : Cli} (h : CliInBounds c) (oldpid : Int) :
    ∃ r, find_saved c oldpid = some r ∧
      (r = -1 ∨
       (∃ n : Nat, r = (n : Int) ∧ n < c.saved_count.toNat ∧
          ∃ sp, c.saved[n]? = some sp ∧ sp.old_pid = oldpid)) := by
  obtain ⟨r, hr, hspec⟩ :=
    find_saved_loop_spec c.saved oldpid c.saved_count.toNat 0
      (by simpa using cli_saved_count_le h)
  refine ⟨r, by simpa [find_saved] using hr, ?_⟩
  rcases hspec with h1 | ⟨n, h1, _, h3, h4⟩
  · exact Or.inl h1
  · exact Or.inr ⟨n, h1, by omega, h4⟩

/-- The shifting loop started at `i` with `k` iterations copies rows
`i + 1 .. i + k` one place down and leaves every other row alone. -/
theorem shift_loop_spec :
    ∀ (k i : Nat) (a : List SavedProcess), i + k + 1 ≤ a.length →
      ∃ a', shift_loop a k (i : Int) = some a' ∧ a'.length = a.length ∧
        ∀ j, a'[j]? = if i ≤ j ∧ j < i + k then a[j + 1]? else a[j]? := by
  intro k
  induction k with
  | zero =>
    intro i a _
    refine ⟨a, rfl, rfl, ?_⟩
    intro j
    have : ¬ (i ≤ j ∧ j < i + 0) := by omega
    rw [if_neg this]
  | succ k ih =>
    intro i a hlen
    have h1 : i + 1 < a.length := by omega
    have h0 : i < a.length := by omega
    have hcast : ((i : Int) + 1) = ((i + 1 : Nat) : Int) := by push_cast; rfl
    obtain ⟨a', ha', hl', hget'⟩ := ih (i + 1) (a.set i a[i + 1]) (by simp; omega)
    refine ⟨a', ?_, by simpa using hl', ?_⟩
    · rw [shift_loop, hcast, saved_rd_nat, List.getElem?_eq_getElem h1]
      simp only [Option.some_bind]
      rw [saved_wr_nat _ _ _ h0]
      simp only [Option.some_bind]
      exact ha'
    · intro j
      rw [hget' j]
      by_cases hj : j = i
      · subst hj
        have c1 : ¬ (j + 1 ≤ j ∧ j < j + 1 + k) := by omega
        have c2 : j ≤ j ∧ j < j + (k + 1) := by omega
        rw [if_neg c1, if_pos c2, List.getElem?_set_self h0, List.getElem?_eq_getElem h1]
      · by_cases hin : i + 1 ≤ j ∧ j < i + 1 + k
        · have c2 : i ≤ j ∧ j < i + (k + 1) := by omega
          rw [if_pos hin, if_pos c2, List.getElem?_set_ne (by omega)]
        · have c2 : ¬ (i ≤ j ∧ j < i + (k + 1)) := by omega
          rw [if_neg hin, if_neg c2, List.getElem?_set_ne (fun h => hj h.symm)]

/-- The function `remove_saved_index` on a live index: `saved_count` drops by
one and the live records are the previous ones without the one at `idx`, in
the same order. -/
theorem remove_saved_index_ok {c : Cli} (h : CliInBounds c) {n : Nat}
    (hn : n < c.saved_count.toNat) :
    ∃ c', remove_saved_index c (n : Int) = some c' ∧ CliInBounds c' ∧
      c'.saved_count = c.saved_count - 1 ∧
      live_saved c' = (live_saved c).eraseIdx n := by
  obtain ⟨hlen, h0, hmax⟩ := h
  have hle : c.saved_count.toNat ≤ c.saved.length := by omega
  have hk : (c.saved_count - 1 - (n : Int)).toNat = c.saved_count.toNat - 1 - n := by omega
  obtain ⟨a', ha', hl', hget'⟩ :=
    shift_loop_spec (c.saved_count.toNat - 1 - n) n c.saved (by omega)
  have hguard : ¬ ((n : Int) < 0 ∨ (n : Int) ≥ c.saved_count) := by omega
  have hlt : n < c.saved.length := by omega
  refine ⟨{ saved := a', saved_count := c.saved_count - 1 }, ?_, ?_, rfl, ?_⟩
  · rw [remove_saved_index, if_neg hguard, saved_rd_nat, List.getElem?_eq_getElem hlt, hk]
    simp only [Option.some_bind, ha']
  · exact ⟨by simp only; rw [hl', hlen], by simp only; omega, by simp only; omega⟩
  · have hc1 : (c.saved_count - 1).toNat = c.saved_count.toNat - 1 := by omega
    simp only [live_saved, hc1]
    apply List.ext_getElem?
    intro j
    rw [List.getElem?_eraseIdx, List.getElem?_take, List.getElem?_take, List.getElem?_take,
      hget' j]
    by_cases hj : j < c.saved_count.toNat - 1
    · by_cases hjn : j < n
      · have c1 : ¬ (n ≤ j ∧ j < n + (c.saved_count.toNat - 1 - n)) := by omega
        have c2 : j < c.saved_count.toNat := by omega
        rw [if_pos hj, if_neg c1, if_pos hjn, if_pos c2]
      · have c1 : n ≤ j ∧ j < n + (c.saved_count.toNat - 1 - n) := by omega
        have c2 : j + 1 < c.saved_count.toNat := by omega
        rw [if_pos hj, if_pos c1, if_neg hjn, if_pos c2]
    · have c2 : ¬ j + 1 < c.saved_count.toNat := by omega
      have c3 : ¬ j < n := by omega
      rw [if_neg hj, if_neg c3, if_neg c2]
/-! ### C17 and C18: the capture round of the tool -/

/-- The four ways a "Snapshot & Kill" round ends on a saved table within
bounds: no request made; request refused; request accepted and the record
stored before the termination command; request accepted with the saved table
full, where nothing is stored but the termination command is still issued. -/
theorem capture_flow_cases (c : Cli) (inp : capture_inputs) (hb : CliInBounds c) :
    (∃ acts, capture_flow c inp = some (acts, c) ∧
      ∀ a ∈ acts, ∃ m, a = cli_action.print m) ∨
    (∃ pid, inp.pid = some pid ∧ inp.ioctl_ret < 0 ∧
      capture_flow c inp = some ([cli_action.ioctl_snapshot pid,
        cli_action.print cli_msg.snapshot_ioctl_failed], c)) ∨
    (∃ pid old, inp.pid = some pid ∧ 0 ≤ inp.ioctl_ret ∧
      c.saved_count < (MAX_SAVED : Int) ∧
      c.saved[c.saved_count.toNat]? = some old ∧
      capture_flow c inp = some ([cli_action.ioctl_snapshot pid, cli_action.terminate pid,
        cli_action.print (cli_msg.snapshot_recorded pid)],
        { saved := c.saved.set c.saved_count.toNat (fill_record old inp pid)
          saved_count := c.saved_count + 1 })) ∨
    (∃ pid, inp.pid = some pid ∧ 0 ≤ inp.ioctl_ret ∧ c.saved_count = (MAX_SAVED : Int) ∧
      capture_flow c inp = some ([cli_action.ioctl_snapshot pid,
        cli_action.print cli_msg.saved_table_full, cli_action.terminate pid,
        cli_action.print (cli_msg.snapshot_recorded pid)], c)) := by
  obtain ⟨saved, cnt⟩ := c
  obtain ⟨hlen, h0, hmax⟩ := hb
  simp only at hlen h0 hmax
  lift cnt to ℕ using h0
  simp only [Int.toNat_ofNat]
  by_cases hrun : inp.running.length = 0
  · left
    exact ⟨[cli_action.print cli_msg.no_processes], by simp [capture_flow, hrun], by simp⟩
  · cases hpid : inp.pid with
    | none =>
      left
      exact ⟨[], by simp [capture_flow, hrun, hpid], by simp⟩
    | some pid =>
      by_cases hfound : inp.running.any (fun p => p.pid = pid) = true
      · by_cases hret : inp.ioctl_ret < 0
        · right; left
          refine ⟨pid, rfl, hret, ?_⟩
          simp [capture_flow, hrun, hpid, hfound, hret]
        · by_cases hfull : (cnt : Int) < (MAX_SAVED : Int)
          · right; right; left
            have hlt : cnt < saved.length := by omega
            refine ⟨pid, saved[cnt], rfl, by omega, hfull, List.getElem?_eq_getElem hlt, ?_⟩
            simp [capture_flow, hrun, hpid, hfound, hret, hfull, saved_rd_nat,
              saved_wr_nat, hlt]
          · right; right; right
            refine ⟨pid, rfl, by omega, by omega, ?_⟩
            simp [capture_flow, hrun, hpid, hfound, hret, hfull]
      · left
        have hfound' : inp.running.any (fun p => p.pid = pid) = false := by
          simpa using hfound
        refine ⟨[cli_action.print (cli_msg.pid_not_found pid)], ?_, by simp⟩
        simp [capture_flow, hrun, hpid, hfound']

/-- C17: on every saved table within bounds and for every outcome of the
external calls, the capture round is defined; if the capture request fails
(`ioctl` returns a negative value) the saved table and `saved_count` are
unchanged and no termination command is issued; and a termination command is
only ever issued for the chosen pid, after the capture request for that pid,
on a path where the request did not fail. -/
theorem C17_failed_capture_keeps_process (c : Cli) (inp : capture_inputs)
    (hb : CliInBounds c) :
    ∃ acts c', capture_flow c inp = some (acts, c') ∧
      (inp.ioctl_ret < 0 → c' = c ∧ ∀ p, cli_action.terminate p ∉ acts) ∧
      (∀ p, cli_action.terminate p ∈ acts →
        inp.pid = some p ∧ 0 ≤ inp.ioctl_ret ∧
        ∃ pre post, acts = pre ++ cli_action.terminate p :: post ∧
          cli_action.ioctl_snapshot p ∈ pre) := by
  rcases capture_flow_cases c inp hb with
    ⟨acts, heq, hprint⟩ | ⟨pid, hpid, hret, heq⟩ | ⟨pid, old, hpid, hret, _, _, heq⟩ |
    ⟨pid, hpid, hret, _, heq⟩
  · have hno : ∀ p, cli_action.terminate p ∉ acts := by
      intro p hp
      obtain ⟨m, hm⟩ := hprint _ hp
      cases hm
    exact ⟨acts, c, heq, fun _ => ⟨rfl, hno⟩, fun p hp => absurd hp (hno p)⟩
  · have hno : ∀ p, cli_action.terminate p ∉
        [cli_action.ioctl_snapshot pid, cli_action.print cli_msg.snapshot_ioctl_failed] := by
      intro p hp
      simp at hp
    exact ⟨_, c, heq, fun _ => ⟨rfl, hno⟩, fun p hp => absurd hp (hno p)⟩
  · refine ⟨_, _, heq, fun hneg => absurd hneg (by omega), ?_⟩
    intro p hp
    simp only [List.mem_cons, List.mem_singleton, List.not_mem_nil, or_false,
      cli_action.terminate.injEq] at hp
    rcases hp with hp | hp | hp
    · cases hp
    · subst hp
      exact ⟨hpid, hret, [cli_action.ioctl_snapshot p], _, rfl, by simp⟩
    · cases hp
  · refine ⟨_, _, heq, fun hneg => absurd hneg (by omega), ?_⟩
    intro p hp
    simp only [List.mem_cons, List.mem_singleton, List.not_mem_nil, or_false,
      cli_action.terminate.injEq] at hp
    rcases hp with hp | hp | hp | hp
    · cases hp
    · cases hp
    · subst hp
      exact ⟨hpid, hret, [cli_action.ioctl_snapshot p,
        cli_action.print cli_msg.saved_table_full], _, rfl, by simp⟩
    · cases hp

/-- Witness for C17: a refused capture of pid 500 leaves the table holding
one record untouched and issues no termination command. -/
theorem C17_failed_capture_keeps_process_witness :
    CliInBounds cli_one ∧
      ∃ acts c', capture_flow cli_one (capture_500 (-1)) = some (acts, c') ∧
        ((capture_500 (-1)).ioctl_ret < 0 →
          c' = cli_one ∧ ∀ p, cli_action.terminate p ∉ acts) ∧
        (∀ p, cli_action.terminate p ∈ acts →
          (capture_500 (-1)).pid = some p ∧ 0 ≤ (capture_500 (-1)).ioctl_ret ∧
          ∃ pre post, acts = pre ++ cli_action.terminate p :: post ∧
            cli_action.ioctl_snapshot p ∈ pre) :=
  ⟨cliInBounds_one, C17_failed_capture_keeps_process cli_one (capture_500 (-1)) cliInBounds_one⟩

/-- Below capacity an accepted capture stores the record for the chosen pid as
the new last live record, and `saved_count` stays within `MAX_SAVED`. -/
theorem capture_stores_record (c : Cli) (inp : capture_inputs) (pid : Int)
    (hb : CliInBounds c) (hlt : c.saved_count < (MAX_SAVED : Int))
    (hpid : inp.pid = some pid) (hfound : inp.running.any (fun p => p.pid = pid) = true)
    (hret : 0 ≤ inp.ioctl_ret) :
    ∃ old c', capture_flow c inp = some ([cli_action.ioctl_snapshot pid,
        cli_action.terminate pid, cli_action.print (cli_msg.snapshot_recorded pid)], c') ∧
      CliInBounds c' ∧ live_saved c' = live_saved c ++ [fill_record old inp pid] ∧
      (fill_record old inp pid).old_pid = pid := by
  obtain ⟨saved, cnt⟩ := c
  obtain ⟨hlen, h0, hmax⟩ := hb
  simp only at hlen h0 hmax hlt
  lift cnt to ℕ using h0
  have hrun : ¬ inp.running.length = 0 := by
    intro h
    rw [List.length_eq_zero] at h
    rw [h] at hfound
    simp at hfound
  have hnr : ¬ inp.ioctl_ret < 0 := by omega
  have hlt' : cnt < saved.length := by omega
  refine ⟨saved[cnt],
    { saved := saved.set cnt (fill_record saved[cnt] inp pid)
      saved_count := (cnt : Int) + 1 }, ?_, ?_, ?_, ?_⟩
  · simp [capture_flow, hrun, hpid, hfound, hnr, hlt, saved_rd_nat, saved_wr_nat, hlt']
  · exact ⟨by simpa using hlen, by simp only; omega, by simp only; omega⟩
  · have hc : ((cnt : Int) + 1).toNat = cnt + 1 := by omega
    simp only [live_saved, hc, Int.toNat_ofNat]
    rw [List.take_succ, List.getElem?_set_self hlt', List.set_take,
      List.set_eq_of_length_le (by simp)]
    rfl
  · simp only [fill_record]
    split <;> split <;> rfl

/-- C18 (the code at the failing input): with the saved table holding
`MAX_SAVED` records, none of them for pid 500, an accepted capture of pid 500
stores no record (the table is returned unchanged), reports "Saved table
full", and still issues the termination command for pid 500 and the message
that the process was saved for restore. -/
theorem C18_full_table_kills_without_record :
    CliInBounds cli_full ∧ cli_full.saved_count = (MAX_SAVED : Int) ∧
      (∀ r ∈ live_saved cli_full, r.old_pid ≠ 500) ∧
      capture_flow cli_full (capture_500 0) =
        some ([cli_action.ioctl_snapshot 500, cli_action.print cli_msg.saved_table_full,
               cli_action.terminate 500,
               cli_action.print (cli_msg.snapshot_recorded 500)], cli_full) :=
  ⟨cliInBounds_full, by decide, by decide, by decide⟩

/-! ### C15 and C16: the restore round of the tool -/

/-- The five ways a "Restore" round ends once a saved record for `oldpid` was
found at row `n` and `fork` returned in the parent: spawn failed; child
exited within the poll window; child alive but rejected by validation; child
alive and validated; child not found by the liveness probe. -/
theorem restore_flow_cases (c : Cli) (inp : restore_inputs) (oldpid : Int) (n : Nat)
    (sp : SavedProcess) (hb : CliInBounds c) (ho : inp.oldpid = some oldpid)
    (hf : find_saved c oldpid = some (n : Int)) (hn : n < c.saved_count.toNat)
    (hsp : c.saved[n]? = some sp) (hpid : sp.old_pid = oldpid) (hfork : inp.fork_ret ≠ 0) :
    ∃ c', remove_saved_index c (n : Int) = some c' ∧ CliInBounds c' ∧
      c'.saved_count = c.saved_count - 1 ∧ live_saved c' = (live_saved c).eraseIdx n ∧
      ((inp.fork_ret < 0 ∧
          restore_flow c inp = some ([cli_action.spawn oldpid,
            cli_action.print cli_msg.spawn_failed], c)) ∨
       (0 < inp.fork_ret ∧ poll_child inp.waitpid inp.fork_ret 25 0 ≠ 0 ∧
          restore_flow c inp = some ([cli_action.spawn oldpid,
            cli_action.print (cli_msg.child_exited inp.fork_ret),
            cli_action.ioctl_restore oldpid 0,
            cli_action.print (release_msg (inp.ioctl_ret oldpid 0) oldpid)], c')) ∨
       (0 < inp.fork_ret ∧ poll_child inp.waitpid inp.fork_ret 25 0 = 0 ∧
          probe_alive inp.kill0 20 0 ≠ 0 ∧
          restore_valid sp (link_text inp.exe_link) (comm_text inp.comm_file) = 0 ∧
          restore_flow c inp = some ([cli_action.spawn oldpid,
            cli_action.kill_child inp.fork_ret,
            cli_action.print (cli_msg.validation_failed inp.fork_ret),
            cli_action.launch_in_new_terminal oldpid,
            cli_action.ioctl_restore oldpid 0,
            cli_action.print (release_msg (inp.ioctl_ret oldpid 0) oldpid)], c')) ∨
       (0 < inp.fork_ret ∧ poll_child inp.waitpid inp.fork_ret 25 0 = 0 ∧
          probe_alive inp.kill0 20 0 ≠ 0 ∧
          restore_valid sp (link_text inp.exe_link) (comm_text inp.comm_file) ≠ 0 ∧
          restore_flow c inp = some ([cli_action.spawn oldpid,
            cli_action.print (cli_msg.validated inp.fork_ret),
            cli_action.ioctl_restore oldpid inp.fork_ret,
            cli_action.print
              (if inp.ioctl_ret oldpid inp.fork_ret < 0 then cli_msg.restore_ioctl_failed
               else cli_msg.rebound oldpid inp.fork_ret)], c')) ∨
       (0 < inp.fork_ret ∧ poll_child inp.waitpid inp.fork_ret 25 0 = 0 ∧
          probe_alive inp.kill0 20 0 = 0 ∧
          restore_flow c inp = some ([cli_action.spawn oldpid,
            cli_action.print (cli_msg.child_missing inp.fork_ret),
            cli_action.launch_in_new_terminal oldpid,
            cli_action.ioctl_restore oldpid 0,
            cli_action.print (release_msg (inp.ioctl_ret oldpid 0) oldpid)], c'))) := by
  obtain ⟨c', hrem, hb', hcnt', hlive'⟩ := remove_saved_index_ok hb hn
  refine ⟨c', hrem, hb', hcnt', hlive', ?_⟩
  have hc0 : ¬ c.saved_count = 0 := by omega
  have hnn : ¬ ((n : Int) < 0) := by omega
  have hrd : saved_rd c.saved (n : Int) = some sp := by rw [saved_rd_nat, hsp]
  by_cases hneg : inp.fork_ret < 0
  · left
    refine ⟨hneg, ?_⟩
    simp [restore_flow, hc0, ho, hf, hnn, hrd, spawn_from_saved, hneg, hpid]
  · right
    have hpos : 0 < inp.fork_ret := by omega
    have hsf : spawn_from_saved inp.fork_ret = some inp.fork_ret := by
      simp [spawn_from_saved, hneg, hfork]
    by_cases hpoll : poll_child inp.waitpid inp.fork_ret 25 0 = 0
    · right
      by_cases halive : probe_alive inp.kill0 20 0 = 0
      · right; right
        refine ⟨hpos, hpoll, halive, ?_⟩
        simp [restore_flow, hc0, ho, hf, hnn, hrd, hsf, hneg, hpoll, halive, hrem, hpid]
      · by_cases hvalid :
            restore_valid sp (link_text inp.exe_link) (comm_text inp.comm_file) = 0
        · left
          refine ⟨hpos, hpoll, halive, hvalid, ?_⟩
          simp [restore_flow, hc0, ho, hf, hnn, hrd, hsf, hneg, hpoll, halive, hvalid, hrem,
            hpid]
        · right; left
          refine ⟨hpos, hpoll, halive, hvalid, ?_⟩
          simp [restore_flow, hc0, ho, hf, hnn, hrd, hsf, hneg, hpoll, halive, hvalid, hrem,
            hfork, hpid]
    · left
      refine ⟨hpos, hpoll, ?_⟩
      simp [restore_flow, hc0, ho, hf, hnn, hrd, hsf, hneg, hpoll, hrem, hpid]

/-- A lookup in the saved table that returns a non-negative index found a live
record with the requested old pid. -/
theorem find_saved_found {c : Cli} (hb : CliInBounds c) {oldpid idx : Int}
    (hf : find_saved c oldpid = some idx) (hi : 0 ≤ idx) :
    ∃ (n : Nat) (sp : SavedProcess), idx = (n : Int) ∧ n < c.saved_count.toNat ∧
      c.saved[n]? = some sp ∧ sp.old_pid = oldpid := by
  obtain ⟨r, hr, hspec⟩ := find_saved_spec hb oldpid
  rw [hf] at hr
  cases hr
  rcases hspec with h1 | ⟨n, h1, h2, sp, h3, h4⟩
  · omega
  · exact ⟨n, sp, h1, h2, h3, h4⟩

/-- The polling loop started at iteration `i` with `k` iterations left sets
`child_exited` exactly when some poll among them returns the child's pid and
no earlier one of them returns `-1`. -/
theorem poll_child_ne_zero_iff (waitpid : Nat → Int) (newpid : Int) (hpos : 0 < newpid) :
    ∀ (k i : Nat), poll_child waitpid newpid k i ≠ 0 ↔
      ∃ iter, i ≤ iter ∧ iter < i + k ∧ waitpid iter = newpid ∧
        ∀ j, i ≤ j → j < iter → waitpid j ≠ -1 := by
  intro k
  induction k with
  | zero =>
    intro i
    simp only [poll_child, ne_eq, not_true_eq_false, false_iff]
    rintro ⟨iter, h1, h2, _⟩
    omega
  | succ k ih =>
    intro i
    by_cases hm1 : waitpid i = -1
    · have hv : poll_child waitpid newpid (k + 1) i = 0 := by
        rw [poll_child, if_pos hm1]
      rw [hv]
      simp only [ne_eq, not_true_eq_false, false_iff]
      rintro ⟨iter, h1, _, h3, h4⟩
      by_cases hEq : iter = i
      · subst hEq
        omega
      · exact h4 i (le_refl _) (by omega) hm1
    · by_cases hp : waitpid i = newpid
      · have h0 : ¬ waitpid i = 0 := by omega
        have hv : poll_child waitpid newpid (k + 1) i = 1 := by
          rw [poll_child, if_neg hm1, if_neg h0, if_pos hp]
        rw [hv]
        simp only [ne_eq, one_ne_zero, not_false_eq_true, true_iff]
        exact ⟨i, le_refl _, by omega, hp, fun j h1 h2 => by omega⟩
      · have hstep : poll_child waitpid newpid (k + 1) i =
            poll_child waitpid newpid k (i + 1) := by
          by_cases h0 : waitpid i = 0
          · rw [poll_child, if_neg hm1, if_pos h0]
          · rw [poll_child, if_neg hm1, if_neg h0, if_neg hp]
        rw [hstep, ih (i + 1)]
        constructor
        · rintro ⟨iter, h1, h2, h3, h4⟩
          refine ⟨iter, by omega, by omega, h3, ?_⟩
          intro j hj1 hj2
          by_cases hji : j = i
          · subst hji
            exact hm1
          · exact h4 j (by omega) hj2
        · rintro ⟨iter, h1, h2, h3, h4⟩
          have hne : iter ≠ i := by
            intro hEq
            subst hEq
            exact hp h3
          exact ⟨iter, by omega, by omega, h3, fun j hj1 hj2 => h4 j (by omega) hj2⟩

/-- The variable `child_exited` is set exactly when the child was seen to exit
within the poll window. -/
theorem poll_child_spec (waitpid : Nat → Int) (newpid : Int) (hpos : 0 < newpid) :
    (poll_child waitpid newpid 25 0 ≠ 0 ↔ child_exited_in_window waitpid newpid) := by
  rw [poll_child_ne_zero_iff waitpid newpid hpos 25 0]
  unfold child_exited_in_window
  constructor
  · rintro ⟨iter, _, h2, h3, h4⟩
    exact ⟨iter, by omega, h3, fun j hj => h4 j (Nat.zero_le _) hj⟩
  · rintro ⟨iter, h2, h3, h4⟩
    exact ⟨iter, Nat.zero_le _, by omega, h3, fun j _ hj => h4 j hj⟩

/-- The probe loop started at try `t` with `k` tries left sets `alive` exactly
when one of those probes returns `0` or fails with an `errno` other than
`ESRCH`. -/
theorem probe_alive_ne_zero_iff (kill0 : Nat → Int × Int) :
    ∀ (k t : Nat), probe_alive kill0 k t ≠ 0 ↔
      ∃ u, t ≤ u ∧ u < t + k ∧ ((kill0 u).1 = 0 ∨ (kill0 u).2 ≠ ESRCH) := by
  intro k
  induction k with
  | zero =>
    intro t
    simp only [probe_alive, ne_eq, not_true_eq_false, false_iff]
    rintro ⟨u, h1, h2, _⟩
    omega
  | succ k ih =>
    intro t
    by_cases h0 : (kill0 t).1 = 0
    · have hv : probe_alive kill0 (k + 1) t = 1 := by
        rw [probe_alive, if_pos h0]
      rw [hv]
      simp only [ne_eq, one_ne_zero, not_false_eq_true, true_iff]
      exact ⟨t, le_refl _, by omega, Or.inl h0⟩
    · by_cases he : (kill0 t).2 = ESRCH
      · have hstep : probe_alive kill0 (k + 1) t = probe_alive kill0 k (t + 1) := by
          rw [probe_alive, if_neg h0, if_pos he]
        rw [hstep, ih (t + 1)]
        constructor
        · rintro ⟨u, h1, h2, h3⟩
          exact ⟨u, by omega, by omega, h3⟩
        · rintro ⟨u, h1, h2, h3⟩
          have hne : u ≠ t := by
            intro hEq
            subst hEq
            rcases h3 with h3 | h3
            · exact h0 h3
            · exact h3 he
          exact ⟨u, by omega, by omega, h3⟩
      · have hv : probe_alive kill0 (k + 1) t = 1 := by
          rw [probe_alive, if_neg h0, if_neg he]
        rw [hv]
        simp only [ne_eq, one_ne_zero, not_false_eq_true, true_iff]
        exact ⟨t, le_refl _, by omega, Or.inr he⟩

/-- The variable `alive` is set exactly when the probe found the process. -/
theorem probe_alive_spec (kill0 : Nat → Int × Int) :
    (probe_alive kill0 20 0 ≠ 0 ↔ probe_found_alive kill0) := by
  rw [probe_alive_ne_zero_iff kill0 20 0]
  unfold probe_found_alive
  constructor
  · rintro ⟨u, _, h2, h3⟩
    exact ⟨u, by omega, h3⟩
  · rintro ⟨u, h2, h3⟩
    exact ⟨u, Nat.zero_le _, by omega, h3⟩

/-- C15: in every restore round in which a saved record for the old pid was
found and `spawn_from_saved` returned a pid (`fork` returned a positive value),
exactly one `IOCTL_RESTORE` request is issued, for the old pid.  Its new pid is
the spawned pid exactly when the child was not seen to exit within the poll
window (no poll of `waitpid` among the 25 returned the child's pid before one
returned `-1`), the liveness probe found it (one of the 20 `kill(newpid, 0)`
probes returned `0` or failed with an `errno` other than `ESRCH`), and
validation accepted; it is `0` when the child exited, was not found alive or
failed validation.  Whatever the request returns, the saved record is removed
(`saved_count` drops by one and the live records are the previous ones without
the selected one). -/
theorem C15_restore_decision (c : Cli) (inp : restore_inputs) (oldpid idx : Int)
    (hb : CliInBounds c) (ho : inp.oldpid = some oldpid)
    (hf : find_saved c oldpid = some idx) (hi : 0 ≤ idx) (hfork : 0 < inp.fork_ret) :
    ∃ (sp : SavedProcess) (acts : List cli_action) (c' : Cli) (new : Int),
      saved_rd c.saved idx = some sp ∧ sp.old_pid = oldpid ∧
      restore_flow c inp = some (acts, c') ∧
      restore_requests acts = [(oldpid, new)] ∧
      (new = inp.fork_ret ↔
        (¬ child_exited_in_window inp.waitpid inp.fork_ret ∧ probe_found_alive inp.kill0 ∧
          restore_valid sp (link_text inp.exe_link) (comm_text inp.comm_file) ≠ 0)) ∧
      ((child_exited_in_window inp.waitpid inp.fork_ret ∨ ¬ probe_found_alive inp.kill0 ∨
          restore_valid sp (link_text inp.exe_link) (comm_text inp.comm_file) = 0) →
        new = 0) ∧
      c'.saved_count = c.saved_count - 1 ∧
      live_saved c' = (live_saved c).eraseIdx idx.toNat := by
  obtain ⟨n, sp, hidx, hn, hsp, hpid⟩ := find_saved_found hb hf hi
  subst hidx
  have hne : inp.fork_ret ≠ 0 := by omega
  obtain ⟨c', _, _, hcnt', hlive', hcase⟩ :=
    restore_flow_cases c inp oldpid n sp hb ho hf hn hsp hpid hne
  have hrd : saved_rd c.saved (n : Int) = some sp := by rw [saved_rd_nat, hsp]
  have hP := poll_child_spec inp.waitpid inp.fork_ret hfork
  have hA := probe_alive_spec inp.kill0
  rcases hcase with ⟨hneg, _⟩ | ⟨_, hpoll, heq⟩ | ⟨_, hpoll, halive, hvalid, heq⟩ |
    ⟨_, hpoll, halive, hvalid, heq⟩ | ⟨_, hpoll, halive, heq⟩
  · omega
  · have hex := hP.mp hpoll
    refine ⟨sp, _, c', 0, hrd, hpid, heq, by simp [restore_requests], ?_, fun _ => rfl,
      hcnt', by simpa using hlive'⟩
    exact ⟨fun h0 => absurd h0.symm hne, fun h => absurd hex h.1⟩
  · refine ⟨sp, _, c', 0, hrd, hpid, heq, by simp [restore_requests], ?_, fun _ => rfl,
      hcnt', by simpa using hlive'⟩
    exact ⟨fun h0 => absurd h0.symm hne, fun h => absurd hvalid h.2.2⟩
  · have hnex : ¬ child_exited_in_window inp.waitpid inp.fork_ret :=
      fun hex => (hP.mpr hex) hpoll
    have hfound := hA.mp halive
    refine ⟨sp, _, c', inp.fork_ret, hrd, hpid, heq, by simp [restore_requests], ?_, ?_,
      hcnt', by simpa using hlive'⟩
    · exact ⟨fun _ => ⟨hnex, hfound, hvalid⟩, fun _ => rfl⟩
    · rintro (h | h | h)
      · exact absurd h hnex
      · exact absurd hfound h
      · exact absurd h hvalid
  · have hnf : ¬ probe_found_alive inp.kill0 := fun hfound => (hA.mpr hfound) halive
    refine ⟨sp, _, c', 0, hrd, hpid, heq, by simp [restore_requests], ?_, fun _ => rfl,
      hcnt', by simpa using hlive'⟩
    exact ⟨fun h0 => absurd h0.symm hne, fun h => absurd h.2.1 hnf⟩

/-- Witness for C15 on the table holding the record for pid 100, with the
child pid 250: when the child stays alive and reports `/opt/bin/foo` the
request is `(100, 250)`; when the fourth poll of `waitpid` returns 250 the
request is `(100, 0)`; when every probe fails with `ESRCH` the request is
`(100, 0)`; in each case the record is removed. -/
theorem C15_restore_decision_witness :
    (restore_flow cli_one restore_100_alive).map
        (fun r => (restore_requests r.1, live_saved r.2)) = some ([(100, 250)], []) ∧
    (restore_flow cli_one restore_100_exited).map
        (fun r => (restore_requests r.1, live_saved r.2)) = some ([(100, 0)], []) ∧
    (restore_flow cli_one restore_100_missing).map
        (fun r => (restore_requests r.1, live_saved r.2)) = some ([(100, 0)], []) ∧
    child_exited_in_window restore_100_exited.waitpid 250 ∧
    ¬ probe_found_alive restore_100_missing.kill0 ∧
    (∃ (sp : SavedProcess) (acts : List cli_action) (c' : Cli) (new : Int),
      saved_rd cli_one.saved 0 = some sp ∧ sp.old_pid = 100 ∧
      restore_flow cli_one restore_100_alive = some (acts, c') ∧
      restore_requests acts = [(100, new)] ∧
      (new = restore_100_alive.fork_ret ↔
        (¬ child_exited_in_window restore_100_alive.waitpid restore_100_alive.fork_ret ∧
          probe_found_alive restore_100_alive.kill0 ∧
          restore_valid sp (link_text restore_100_alive.exe_link) (comm_text restore_100_alive.comm_file) ≠ 0)) ∧
      ((child_exited_in_window restore_100_alive.waitpid restore_100_alive.fork_ret ∨
          ¬ probe_found_alive restore_100_alive.kill0 ∨
          restore_valid sp (link_text restore_100_alive.exe_link) (comm_text restore_100_alive.comm_file) = 0) →
        new = 0) ∧
      c'.saved_count = cli_one.saved_count - 1 ∧
      live_saved c' = (live_saved cli_one).eraseIdx (0 : Int).toNat) ∧
    (∃ (sp : SavedProcess) (acts : List cli_action) (c' : Cli) (new : Int),
      saved_rd cli_one.saved 0 = some sp ∧ sp.old_pid = 100 ∧
      restore_flow cli_one restore_100_exited = some (acts, c') ∧
      restore_requests acts = [(100, new)] ∧
      (new = restore_100_exited.fork_ret ↔
        (¬ child_exited_in_window restore_100_exited.waitpid restore_100_exited.fork_ret ∧
          probe_found_alive restore_100_exited.kill0 ∧
          restore_valid sp (link_text restore_100_exited.exe_link) (comm_text restore_100_exited.comm_file) ≠ 0)) ∧
      ((child_exited_in_window restore_100_exited.waitpid restore_100_exited.fork_ret ∨
          ¬ probe_found_alive restore_100_exited.kill0 ∨
          restore_valid sp (link_text restore_100_exited.exe_link) (comm_text restore_100_exited.comm_file) = 0) →
        new = 0) ∧
      c'.saved_count = cli_one.saved_count - 1 ∧
      live_saved c' = (live_saved cli_one).eraseIdx (0 : Int).toNat) ∧
    (∃ (sp : SavedProcess) (acts : List cli_action) (c' : Cli) (new : Int),
      saved_rd cli_one.saved 0 = some sp ∧ sp.old_pid = 100 ∧
      restore_flow cli_one restore_100_missing = some (acts, c') ∧
      restore_requests acts = [(100, new)] ∧
      (new = restore_100_missing.fork_ret ↔
        (¬ child_exited_in_window restore_100_missing.waitpid restore_100_missing.fork_ret ∧
          probe_found_alive restore_100_missing.kill0 ∧
          restore_valid sp (link_text restore_100_missing.exe_link) (comm_text restore_100_missing.comm_file) ≠ 0)) ∧
      ((child_exited_in_window restore_100_missing.waitpid restore_100_missing.fork_ret ∨
          ¬ probe_found_alive restore_100_missing.kill0 ∨
          restore_valid sp (link_text restore_100_missing.exe_link) (comm_text restore_100_missing.comm_file) = 0) →
        new = 0) ∧
      c'.saved_count = cli_one.saved_count - 1 ∧
      live_saved c' = (live_saved cli_one).eraseIdx (0 : Int).toNat) :=
  ⟨by decide, by decide, by decide,
    ⟨3, by decide, by decide, fun j hj => by
      have : (if j = 3 then (250 : Int) else 0) = 0 := if_neg (by omega)
      show (if j = 3 then (250 : Int) else 0) ≠ -1
      rw [this]
      decide⟩,
    (fun h => by
      obtain ⟨t, _, h3⟩ := h
      rcases h3 with h3 | h3
      · exact absurd (show ((-1 : Int), (3 : Int)).1 = 0 from h3) (by decide)
      · exact h3 (show ((-1 : Int), (3 : Int)).2 = ESRCH from rfl)),
    C15_restore_decision cli_one restore_100_alive 100 0 cliInBounds_one rfl (by decide)
      (by decide) (by decide),
    C15_restore_decision cli_one restore_100_exited 100 0 cliInBounds_one rfl (by decide)
      (by decide) (by decide),
    C15_restore_decision cli_one restore_100_missing 100 0 cliInBounds_one rfl (by decide)
      (by decide) (by decide)⟩

theorem kernel_restore_eq (procs : Int → pid_lookup) (k : Registry) (oldpid newpid : Int) :
    kernel_restore procs k oldpid newpid = do_restore_rebind procs k oldpid newpid := by
  have hne : ¬ IOCTL_RESTORE = IOCTL_SNAPSHOT := by decide
  simp [kernel_restore, snapshot_ioctl, hne]

theorem serve_restore (procs : Int → pid_lookup) (k : Registry) (o n : Int)
    (rest : List cli_action) :
    serve procs k (cli_action.ioctl_restore o n :: rest) =
      (do_restore_rebind procs k o n).bind fun r => serve procs r.2 rest := by
  rw [← kernel_restore_eq]
  rfl

theorem serve_spawn (procs : Int → pid_lookup) (k : Registry) (p : Int)
    (rest : List cli_action) :
    serve procs k (cli_action.spawn p :: rest) = serve procs k rest := rfl

theorem serve_print (procs : Int → pid_lookup) (k : Registry) (m : cli_msg)
    (rest : List cli_action) :
    serve procs k (cli_action.print m :: rest) = serve procs k rest := rfl

theorem serve_kill_child (procs : Int → pid_lookup) (k : Registry) (p : Int)
    (rest : List cli_action) :
    serve procs k (cli_action.kill_child p :: rest) = serve procs k rest := rfl

theorem serve_launch (procs : Int → pid_lookup) (k : Registry) (p : Int)
    (rest : List cli_action) :
    serve procs k (cli_action.launch_in_new_terminal p :: rest) = serve procs k rest := rfl

theorem serve_nil (procs : Int → pid_lookup) (k : Registry) : serve procs k [] = some k := rfl

/-- What one `do_restore_rebind` call leaves of the registry: nothing changes
when the status is non-zero; on status `0` the first row for `oldpid` was
released (new pid `0`) or rebound to the task the new pid resolves to. -/
theorem restore_kernel_outcome {procs : Int → pid_lookup} {k k' : Registry}
    {oldpid new r : Int} (hk : InBounds k)
    (hstep : do_restore_rebind procs k oldpid new = some (r, k')) :
    (r ≠ 0 → k' = k) ∧
    (r = 0 →
      (new = 0 ∧ ∃ (i : Nat) (e last : snap_entry),
        find_snap k oldpid = some (i : Int) ∧ k' = released k i e last) ∨
      (new ≠ 0 ∧ ∃ (i : Nat) (e : snap_entry) (t : task_struct),
        find_snap k oldpid = some (i : Int) ∧ procs new = .task t ∧
        k' = rebound k i new t e)) := by
  rcases do_restore_rebind_cases procs hk oldpid new with
    ⟨_, _, heq⟩ | ⟨i, e, hf, _, _, _, _, hcase⟩
  · rw [heq] at hstep
    cases hstep
    exact ⟨fun _ => rfl, fun h0 => absurd h0 neg_EINVAL_ne_zero⟩
  · rcases hcase with ⟨h0, last, _, heq⟩ | ⟨_, _, heq⟩ | ⟨hne, t, hp, _, _, heq⟩
    · rw [heq] at hstep
      cases hstep
      exact ⟨fun h => absurd rfl h, fun _ => Or.inl ⟨h0, i, e, last, hf, rfl⟩⟩
    · rw [heq] at hstep
      cases hstep
      exact ⟨fun _ => rfl, fun h0 => absurd h0 neg_EINVAL_ne_zero⟩
    · rw [heq] at hstep
      cases hstep
      exact ⟨fun h => absurd rfl h, fun _ => Or.inr ⟨hne, i, e, t, hf, hp, rfl⟩⟩

/-- C16 (as stated, refuted) on a reachable registry holding pid 100 and a
saved table holding its record.  When `fork` fails, the round returns to the
menu without any request: the record and the registry slot for pid 100 are
both still there.  When the spawned child is pid 5, which the registry cannot
resolve, the single request `(100, 5)` is refused: the saved record is removed
but the registry still holds the slot under pid 100, neither rebound nor
released. -/
theorem C16_restore_leaves_slot_held :
    Reachable captured_once ∧ find_saved cli_one 100 = some 0 ∧
    (restore_system procs1 captured_once cli_one (restore_100 (-1) none none)).map
        (fun r => (restore_requests r.1, (live_saved r.2.1).map (fun s => s.old_pid),
          live_pids r.2.2, find_snap r.2.2 100))
      = some ([], [100], [100], some 0) ∧
    (restore_system procs1 captured_once cli_one (restore_100 5 none none)).map
        (fun r => (restore_requests r.1, (live_saved r.2.1).map (fun s => s.old_pid),
          live_pids r.2.2, find_snap r.2.2 100))
      = some ([(100, 5)], [], [100], some 0) :=
  ⟨reachable_captured_once, by decide, by decide, by decide⟩

/-- C16 (amended): for every saved record selected for restore, every registry
within bounds and every outcome of the external calls, the round returns to
the menu.  If `fork` failed, no request was issued and the saved table and the
registry are unchanged.  Otherwise exactly one `IOCTL_RESTORE` request was
issued, for the old pid, with new pid `0` or the spawned pid, and the saved
record was removed; if the registry answered `0` the slot for the old pid was
released and removed (new pid `0`) or rebound to the spawned pid, and if it
answered an error the registry is unchanged. -/
theorem C16_restore_round_outcome (procs : Int → pid_lookup) (k : Registry) (c : Cli)
    (inp : restore_inputs) (oldpid idx : Int) (hk : InBounds k) (hb : CliInBounds c)
    (ho : inp.oldpid = some oldpid) (hf : find_saved c oldpid = some idx) (hi : 0 ≤ idx)
    (hfork : inp.fork_ret ≠ 0) :
    ∃ (acts : List cli_action) (c' : Cli) (k' : Registry),
      restore_system procs k c inp = some (acts, c', k') ∧
      (inp.fork_ret < 0 → restore_requests acts = [] ∧ c' = c ∧ k' = k) ∧
      (0 < inp.fork_ret → ∃ (new r : Int),
        restore_requests acts = [(oldpid, new)] ∧
        do_restore_rebind procs k oldpid new = some (r, k') ∧
        live_saved c' = (live_saved c).eraseIdx idx.toNat ∧
        (r ≠ 0 → k' = k) ∧
        (r = 0 →
          (new = 0 ∧ ∃ (i : Nat) (e last : snap_entry),
            find_snap k oldpid = some (i : Int) ∧ k' = released k i e last) ∨
          (new = inp.fork_ret ∧ ∃ (i : Nat) (e : snap_entry) (t : task_struct),
            find_snap k oldpid = some (i : Int) ∧ procs new = .task t ∧
            k' = rebound k i new t e))) := by
  obtain ⟨n, sp, hidx, hn, hsp, hpid⟩ := find_saved_found hb hf hi
  subst hidx
  obtain ⟨c', _, _, _, hlive', hcase⟩ :=
    restore_flow_cases c { inp with ioctl_ret := kernel_answer procs k }
      oldpid n sp hb ho hf hn hsp hpid hfork
  have hlive'' : live_saved c' = (live_saved c).eraseIdx (n : Int).toNat := by
    simpa using hlive'
  have hsys : ∀ acts c'', restore_flow c { inp with ioctl_ret := kernel_answer procs k }
        = some (acts, c'') →
      restore_system procs k c inp = (serve procs k acts).bind fun k' => some (acts, c'', k') := by
    intro acts c'' h
    simp only [restore_system, h, Option.some_bind]
  have key : (inp.fork_ret < 0 ∧ ∃ acts,
        restore_flow c { inp with ioctl_ret := kernel_answer procs k } = some (acts, c) ∧
        restore_requests acts = [] ∧ serve procs k acts = some k) ∨
      (0 < inp.fork_ret ∧ ∃ acts new,
        restore_flow c { inp with ioctl_ret := kernel_answer procs k } = some (acts, c') ∧
        restore_requests acts = [(oldpid, new)] ∧
        serve procs k acts = ((do_restore_rebind procs k oldpid new).bind fun r => some r.2) ∧
        (new = 0 ∨ new = inp.fork_ret)) := by
    rcases hcase with ⟨hneg, heq⟩ | ⟨hpos, _, heq⟩ | ⟨hpos, _, _, _, heq⟩ |
      ⟨hpos, _, _, _, heq⟩ | ⟨hpos, _, _, heq⟩
    · exact Or.inl ⟨hneg, _, heq, by simp [restore_requests], rfl⟩
    · exact Or.inr ⟨hpos, _, 0, heq, by simp [restore_requests],
        by simp only [serve_spawn, serve_print, serve_nil, serve_restore], Or.inl rfl⟩
    · exact Or.inr ⟨hpos, _, 0, heq, by simp [restore_requests],
        by simp only [serve_spawn, serve_print, serve_nil, serve_restore, serve_kill_child,
          serve_launch], Or.inl rfl⟩
    · exact Or.inr ⟨hpos, _, inp.fork_ret, heq, by simp [restore_requests],
        by simp only [serve_spawn, serve_print, serve_nil, serve_restore], Or.inr rfl⟩
    · exact Or.inr ⟨hpos, _, 0, heq, by simp [restore_requests],
        by simp only [serve_spawn, serve_print, serve_nil, serve_restore, serve_launch],
        Or.inl rfl⟩
  rcases key with ⟨hneg, acts, heq, hreq, hserve⟩ | ⟨hpos, acts, new, heq, hreq, hserve, hnew⟩
  · refine ⟨acts, c, k, ?_, fun _ => ⟨hreq, rfl, rfl⟩, fun hpos => absurd hneg (by omega)⟩
    rw [hsys acts c heq, hserve]
    rfl
  · obtain ⟨r, k', hstep⟩ := do_restore_rebind_defined procs hk oldpid new
    obtain ⟨hfail, hok⟩ := restore_kernel_outcome hk hstep
    refine ⟨acts, c', k', ?_, fun hneg => absurd hneg (by omega), fun _ =>
      ⟨new, r, hreq, hstep, hlive'', hfail, ?_⟩⟩
    · rw [hsys acts c' heq, hserve, hstep]
      rfl
    · intro h0
      rcases hok h0 with h | ⟨hne, h⟩
      · exact Or.inl h
      · rcases hnew with hz | hz
        · exact absurd hz hne
        · exact Or.inr ⟨hz, h⟩

/-- Witness for C16 (amended): restoring pid 100 with the child pid 250 alive,
against the registry that holds pid 100. -/
theorem C16_restore_round_outcome_witness :
    ∃ (acts : List cli_action) (c' : Cli) (k' : Registry),
      restore_system procs1 captured_once cli_one (restore_100 250 none none)
        = some (acts, c', k') ∧
      ((restore_100 250 none none).fork_ret < 0 →
        restore_requests acts = [] ∧ c' = cli_one ∧ k' = captured_once) ∧
      (0 < (restore_100 250 none none).fork_ret → ∃ (new r : Int),
        restore_requests acts = [(100, new)] ∧
        do_restore_rebind procs1 captured_once 100 new = some (r, k') ∧
        live_saved c' = (live_saved cli_one).eraseIdx (0 : Int).toNat ∧
        (r ≠ 0 → k' = captured_once) ∧
        (r = 0 →
          (new = 0 ∧ ∃ (i : Nat) (e last : snap_entry),
            find_snap captured_once 100 = some (i : Int) ∧
            k' = released captured_once i e last) ∨
          (new = (restore_100 250 none none).fork_ret ∧
            ∃ (i : Nat) (e : snap_entry) (t : task_struct),
            find_snap captured_once 100 = some (i : Int) ∧ procs1 new = .task t ∧
            k' = rebound captured_once i new t e))) :=
  C16_restore_round_outcome procs1 captured_once cli_one (restore_100 250 none none) 100 0
    (reachable_inBounds reachable_captured_once) cliInBounds_one rfl (by decide) (by decide)
    (by decide)

/-! ### C20: the pid that `snapshot_user` has captured -/

/-- C20 (the code at the failing input): `snapshot_user snapshot 100` with
`SNAPSHOT_ARG_MODE=ptr` passes the address of its `pid` parameter,
`0x7ffc00000100`, as the request argument; the handler casts the argument
itself to `pid_t` and calls `do_snapshot(256)`.  Pid 256 is an eligible
process, so the request succeeds: the tool prints `OK snapshot 100` and exits
`0`, while the registry has captured pid 256 and not pid 100.  The same
happens in the default mode, which tries the pointer variant first; the value
variant passes pid 100 itself. -/
theorem C20_ptr_mode_captures_address :
    to_pid_t env_ptr.addr = 256 ∧ is_number (cs "100") = 1 ∧ atoi (cs "100") = 100 ∧
    (snapshot_user_snapshot procs2 init env_ptr (some (cs "100"))).map
        (fun o => (o.exit_code, o.ok_pid, o.candidates, live_pids o.kernel))
      = some (0, some 100, [256], [256]) ∧
    (snapshot_user_snapshot procs2 init { env_ptr with modeenv := none }
        (some (cs "100"))).map
        (fun o => (o.exit_code, o.ok_pid, o.candidates, live_pids o.kernel))
      = some (0, some 100, [256], [256]) ∧
    (snapshot_user_snapshot procs2 init { env_ptr with modeenv := some (cs "val") }
        (some (cs "100"))).map
        (fun o => (o.exit_code, o.ok_pid, o.candidates, live_pids o.kernel))
      = some (0, some 100, [100], [100]) :=
  ⟨by decide, by decide, by decide, by decide, by decide, by decide⟩

end Snapshotter
